import Mathlib

/-!
# gogammu: the Go binding for libGammu

A shallow embedding of `gammu.go`.  The binding is a thin layer over the native
library, so the native library is an environment: each native operation whose
result the binding inspects is an oracle of `Native`, and every native call that
touches the device or the engine context is recorded in the `World` log.

* Go strings are lists of bytes, native UTF-16 buffers are lists of code units
  (the content up to the terminator).
* A Go `error` is an `Option GSM_Error`: `none` is `nil`, `some e` is `Error(e)`.
* `time.Now()` reads a clock stream; the poll loop of `sendSMS` takes fuel, one
  unit for each evaluation of the loop condition.
-/

namespace Gammu

/-! ## Data model -/

/-- Native `GSM_Error` codes: the three members the binding names, and every
other member of the enumeration by its number. -/
inductive GSM_Error where
  | ERR_NONE
  | ERR_TIMEOUT
  | ERR_UNKNOWN
  | ERR_OTHER (code : Nat)
  deriving DecidableEq, Repr

/-- Native `GSM_SMSMessageType`; `unset` is the zero value of a fresh struct. -/
inductive GSM_SMSMessageType where
  | unset
  | SMS_Deliver
  | SMS_Status_Report
  | SMS_Submit
  deriving DecidableEq, Repr

/-- Native `GSM_UDH`; `unset` is the zero value, `other` any member the binding
does not name. -/
inductive GSM_UDH where
  | unset
  | UDH_NoUDH
  | other (code : Nat)
  deriving DecidableEq, Repr

/-- Native `GSM_Coding_Type`; `unset` is the zero value. -/
inductive GSM_Coding_Type where
  | unset
  | SMS_Coding_Unicode_No_Compression
  | SMS_Coding_Default_No_Compression
  | other (code : Nat)
  deriving DecidableEq, Repr

/-- Native `EncodeMultiPartSMSID`; only the member the binding uses is named. -/
inductive EncodeMultiPartSMSID where
  | unset
  | SMS_ConcatenatedTextLong
  | other (code : Nat)
  deriving DecidableEq, Repr

/-- A Go string: its bytes. -/
abbrev GoString := List Nat

/-- A native UTF-16 string: its code units up to the terminator. -/
abbrev UString := List Nat

/-- A native engine context (`*C.GSM_StateMachine`); `none` is the nil pointer. -/
abbrev Handle := Option Nat

/-- Native `GSM_SMSC`: the fields the binding touches. -/
structure GSM_SMSC where
  Location : Int
  Number : UString
  deriving DecidableEq, Repr

/-- The user data header of a message: its `Type` field (`Type` is reserved in
Lean, hence `Type_`). -/
structure GSM_UDHHeader where
  Type_ : GSM_UDH
  deriving DecidableEq, Repr

/-- Native `GSM_SMSMessage`: the fields the binding touches. -/
structure GSM_SMSMessage where
  SMSC : GSM_SMSC
  UDH : GSM_UDHHeader
  Number : UString
  Text : UString
  PDU : GSM_SMSMessageType
  Coding : GSM_Coding_Type
  Class : Int
  deriving DecidableEq, Repr

/-- The zero value of `GSM_SMSC`. -/
def GSM_SMSC.zero : GSM_SMSC := ⟨0, []⟩

/-- The zero value of `GSM_SMSMessage` (`var sms C.GSM_SMSMessage`). -/
def GSM_SMSMessage.zero : GSM_SMSMessage :=
  ⟨GSM_SMSC.zero, ⟨GSM_UDH.unset⟩, [], [], GSM_SMSMessageType.unset, GSM_Coding_Type.unset, 0⟩

/-- One entry of the multi-part info: `ID` and `Buffer`. -/
structure GSM_MultiPartSMSEntry where
  ID : EncodeMultiPartSMSID
  Buffer : UString
  deriving DecidableEq, Repr

/-- Native `GSM_MultiPartSMSInfo`: the fields `SendLongSMS` fills in. -/
structure GSM_MultiPartSMSInfo where
  Class : Int
  EntriesNum : Int
  UnicodeCoding : Bool
  Entries0 : GSM_MultiPartSMSEntry
  deriving DecidableEq, Repr

/-- Native `GSM_MultiSMSMessage`: the segment count and the fixed-size array of
segments (the length of `SMS` is the capacity of the array). -/
structure GSM_MultiSMSMessage where
  Number : Int
  SMS : List GSM_SMSMessage
  deriving DecidableEq, Repr

/-- The Go struct `StateMachine`. `Timeout` is a `time.Duration` in nanoseconds. -/
structure StateMachine where
  g : Handle
  smsc : GSM_SMSC
  status : GSM_Error
  Timeout : Int
  deriving DecidableEq, Repr

/-- A native call that acts on the device or on the engine context. -/
inductive Call where
  | FindGammuRC (cf : Option GoString)
  | INI_Free
  | AllocStateMachine
  | ReadConfig (g : Handle)
  | SetConfigNum (g : Handle) (n : Int)
  | FreeStateMachine (g : Handle)
  | InitConnection (g : Handle) (n : Int)
  | SetStatusCallback (g : Handle)
  | GetSMSC (g : Handle)
  | TerminateConnection (g : Handle)
  | SendSMS (g : Handle) (sms : GSM_SMSMessage)
  | ReadDevice (g : Handle)
  deriving DecidableEq, Repr

/-- The environment of the binding: the results of the native operations and
the clock.  The first argument of an oracle is the number of earlier calls of
the same stream, so that the same call can answer differently each time. -/
structure Native where
  /-- Result of the n-th `GSM_SendSMS`. -/
  GSM_SendSMS : Nat → Handle → GSM_SMSMessage → GSM_Error
  /-- The statuses with which the n-th `GSM_ReadDevice` fires the registered
  send-status callback (empty: the callback does not fire during that pump). -/
  GSM_ReadDevice : Nat → Handle → List Int
  /-- The n-th reading of `time.Now()`, in nanoseconds of the monotonic clock. -/
  now : Nat → Int
  /-- Native `DecodeUTF8`: the UTF-16 string for the given UTF-8 bytes. -/
  DecodeUTF8 : GoString → UString
  /-- Native `GSM_EncodeMultiPartSMS`: the code and the filled multi message. -/
  GSM_EncodeMultiPartSMS : GSM_MultiPartSMSInfo → GSM_Error × GSM_MultiSMSMessage
  /-- Native `GSM_FindGammuRC` on a path, or on nil for the default search. -/
  GSM_FindGammuRC : Nat → Option GoString → GSM_Error
  /-- Native `GSM_AllocStateMachine`: a context, or nil when out of memory. -/
  GSM_AllocStateMachine : Nat → Handle
  /-- Native `GSM_ReadConfig` into slot 0 of the context. -/
  GSM_ReadConfig : Nat → Handle → GSM_Error
  /-- Native `GSM_InitConnection`. -/
  GSM_InitConnection : Nat → Handle → Int → GSM_Error
  /-- Native `GSM_GetSMSC`: the code and the descriptor it leaves in place. -/
  GSM_GetSMSC : Nat → Handle → GSM_SMSC → GSM_Error × GSM_SMSC
  /-- Native `GSM_TerminateConnection`. -/
  GSM_TerminateConnection : Nat → Handle → GSM_Error

/-- The state of the environment: how many clock readings, pumps and
submissions were made, and the log of native calls, most recent first. -/
structure World where
  nNow : Nat
  nPump : Nat
  nSubmit : Nat
  log : List Call
  deriving DecidableEq, Repr

/-- The world before any call. -/
def World.init : World := ⟨0, 0, 0, []⟩

/-- Record a native call. -/
def World.record (w : World) (c : Call) : World :=
  { w with log := c :: w.log }

/-- How a call of the binding ends. -/
inductive Exit where
  /-- It returned the given Go error (`none` is nil). -/
  | returned (err : Option GSM_Error)
  /-- The Go runtime panicked. -/
  | panicked
  /-- The poll loop was still running when the fuel ran out. -/
  | unfinished
  deriving DecidableEq, Repr

/-! ## The send coordinator -/

/-- The C function `sendCallback`: the value it stores in the status cell. -/
def sendCallback (status : Int) : GSM_Error :=
  if status = 0 then GSM_Error.ERR_NONE else GSM_Error.ERR_UNKNOWN

/-- The status cell after the callback fired with each of the given statuses. -/
def fireCallbacks (cell : GSM_Error) (statuses : List Int) : GSM_Error :=
  statuses.foldl (fun _ s => sendCallback s) cell

/-- Native `CopyUnicodeString` on string contents: the destination holds the
source string afterwards. -/
def CopyUnicodeString (_dest src : UString) : UString := src

/-- The wait loop of `sendSMS`: `for time.Now().Sub(t) < sm.Timeout`.  The
result tells whether the loop ended. -/
def pollLoop (N : Native) (t : Int) : Nat → StateMachine → World → Bool × StateMachine × World
  | 0, sm, w => (false, sm, w)
  | fuel + 1, sm, w =>
    let w1 : World := { w with nNow := w.nNow + 1 }
    if N.now w.nNow - t < sm.Timeout then
      let sm1 : StateMachine :=
        { sm with status := fireCallbacks sm.status (N.GSM_ReadDevice w1.nPump sm.g) }
      let w2 : World := { (w1.record (Call.ReadDevice sm.g)) with nPump := w1.nPump + 1 }
      if sm1.status = GSM_Error.ERR_NONE then (true, sm1, w2)
      else if sm1.status ≠ GSM_Error.ERR_TIMEOUT then (true, sm1, w2)
      else pollLoop N t fuel sm1 w2
    else (true, sm, w1)

/-- The first statement of `sendSMS`: the message after
`CopyUnicodeString(&sms.SMSC.Number[0], &sm.smsc.Number[0])`. -/
def stampSMSC (sm : StateMachine) (sms : GSM_SMSMessage) : GSM_SMSMessage :=
  { sms with SMSC := { sms.SMSC with Number := CopyUnicodeString sms.SMSC.Number sm.smsc.Number } }

/-- The method `sendSMS`. -/
def sendSMS (N : Native) (fuel : Nat) (sm : StateMachine) (w : World) (sms : GSM_SMSMessage) :
    Exit × StateMachine × World :=
  let sms1 : GSM_SMSMessage := stampSMSC sm sms
  let sm1 : StateMachine := { sm with status := GSM_Error.ERR_TIMEOUT }
  let e := N.GSM_SendSMS w.nSubmit sm1.g sms1
  let w1 : World := { (w.record (Call.SendSMS sm1.g sms1)) with nSubmit := w.nSubmit + 1 }
  if e ≠ GSM_Error.ERR_NONE then (Exit.returned (some e), sm1, w1)
  else
    let t := N.now w1.nNow
    let w2 : World := { w1 with nNow := w1.nNow + 1 }
    match pollLoop N t fuel sm1 w2 with
    | (false, sm2, w3) => (Exit.unfinished, sm2, w3)
    | (true, sm2, w3) =>
      if sm2.status ≠ GSM_Error.ERR_NONE then (Exit.returned (some sm2.status), sm2, w3)
      else (Exit.returned none, sm2, w3)

/-- The method `decodeUTF8` of the binding: the string written to `out`. -/
def decodeUTF8 (N : Native) (input : GoString) : UString := N.DecodeUTF8 input

/-- The message `SendSMS` builds and hands to `sendSMS`. -/
def SendSMS_message (N : Native) (number text : GoString) : GSM_SMSMessage :=
  let sms := GSM_SMSMessage.zero
  let sms := { sms with Number := decodeUTF8 N number }
  let sms := { sms with Text := decodeUTF8 N text }
  let sms := { sms with PDU := GSM_SMSMessageType.SMS_Submit }
  let sms := { sms with UDH := { sms.UDH with Type_ := GSM_UDH.UDH_NoUDH } }
  let sms := { sms with Coding := GSM_Coding_Type.SMS_Coding_Default_No_Compression }
  { sms with Class := 1 }

/-- The method `SendSMS`. -/
def SendSMS (N : Native) (fuel : Nat) (sm : StateMachine) (w : World) (number text : GoString) :
    Exit × StateMachine × World :=
  sendSMS N fuel sm w (SendSMS_message N number text)

/-! ## Ranging over a Go string

`for _, r := range text` decodes the string one rune at a time: a byte below
`runeSelf` is the rune itself, any other byte goes through the runtime function
`decoderune`, which yields `runeError` and advances one byte on an invalid
sequence. -/

/-- Go runtime constant `runeError`. -/
def runeError : Nat := 0xFFFD
/-- Go runtime constant `runeSelf`. -/
def runeSelf : Nat := 0x80
/-- Go runtime constant `maxRune`. -/
def maxRune : Nat := 0x10FFFF
/-- Go runtime constant `surrogateMin`. -/
def surrogateMin : Nat := 0xD800
/-- Go runtime constant `surrogateMax`. -/
def surrogateMax : Nat := 0xDFFF
/-- Go runtime constant `t2`. -/
def t2 : Nat := 0xC0
/-- Go runtime constant `t3`. -/
def t3 : Nat := 0xE0
/-- Go runtime constant `t4`. -/
def t4 : Nat := 0xF0
/-- Go runtime constant `t5`. -/
def t5 : Nat := 0xF8
/-- Go runtime constant `maskx`. -/
def maskx : Nat := 0x3F
/-- Go runtime constant `mask2`. -/
def mask2 : Nat := 0x1F
/-- Go runtime constant `mask3`. -/
def mask3 : Nat := 0x0F
/-- Go runtime constant `mask4`. -/
def mask4 : Nat := 0x07
/-- Go runtime constant `rune1Max`. -/
def rune1Max : Nat := 0x7F
/-- Go runtime constant `rune2Max`. -/
def rune2Max : Nat := 0x7FF
/-- Go runtime constant `rune3Max`. -/
def rune3Max : Nat := 0xFFFF
/-- Go runtime constant `locb`. -/
def locb : Nat := 0x80
/-- Go runtime constant `hicb`. -/
def hicb : Nat := 0xBF

/-- Whether a byte is a continuation byte. -/
def isCont (b : Nat) : Bool := decide (locb ≤ b) && decide (b ≤ hicb)

/-- The rune of a two-byte sequence in `decoderune`:
`rune(s[0]&mask2)<<6 | rune(s[1]&maskx)`. -/
def rune2 (b0 b1 : Nat) : Nat := ((b0 &&& mask2) <<< 6) ||| (b1 &&& maskx)

/-- The rune of a three-byte sequence in `decoderune`. -/
def rune3 (b0 b1 b2 : Nat) : Nat :=
  ((b0 &&& mask3) <<< 12) ||| ((b1 &&& maskx) <<< 6) ||| (b2 &&& maskx)

/-- The rune of a four-byte sequence in `decoderune`. -/
def rune4 (b0 b1 b2 b3 : Nat) : Nat :=
  ((b0 &&& mask4) <<< 18) ||| ((b1 &&& maskx) <<< 12) ||| ((b2 &&& maskx) <<< 6) ||| (b3 &&& maskx)

/-- Go runtime `decoderune` on the rest `s[k:]` of the string: the rune and the
number of bytes it takes (`pos - k`). -/
def decoderune (s : List Nat) : Nat × Nat :=
  match s with
  | [] => (runeError, 1)
  | b0 :: rest =>
    if t2 ≤ b0 ∧ b0 < t3 then
      match rest with
      | b1 :: _ =>
        if isCont b1 then
          if rune1Max < rune2 b0 b1 then (rune2 b0 b1, 2) else (runeError, 1)
        else (runeError, 1)
      | _ => (runeError, 1)
    else if t3 ≤ b0 ∧ b0 < t4 then
      match rest with
      | b1 :: b2 :: _ =>
        if isCont b1 && isCont b2 then
          if rune2Max < rune3 b0 b1 b2 ∧
              ¬ (surrogateMin ≤ rune3 b0 b1 b2 ∧ rune3 b0 b1 b2 ≤ surrogateMax) then
            (rune3 b0 b1 b2, 3)
          else (runeError, 1)
        else (runeError, 1)
      | _ => (runeError, 1)
    else if t4 ≤ b0 ∧ b0 < t5 then
      match rest with
      | b1 :: b2 :: b3 :: _ =>
        if isCont b1 && isCont b2 && isCont b3 then
          if rune3Max < rune4 b0 b1 b2 b3 ∧ rune4 b0 b1 b2 b3 ≤ maxRune then
            (rune4 b0 b1 b2 b3, 4)
          else (runeError, 1)
        else (runeError, 1)
      | _ => (runeError, 1)
    else (runeError, 1)

/-- The runes a `range` loop over the string visits, in order.  The fuel bounds
the number of iterations; every iteration takes at least one byte. -/
def rangeRunes : Nat → List Nat → List Nat
  | 0, _ => []
  | _, [] => []
  | fuel + 1, b :: rest =>
    if b < runeSelf then b :: rangeRunes fuel rest
    else
      let d := decoderune (b :: rest)
      d.1 :: rangeRunes fuel ((b :: rest).drop d.2)

/-- The runes of `for _, r := range text`. -/
def rangeString (text : GoString) : List Nat := rangeRunes text.length text

/-- The non-ASCII check of `SendLongSMS`: the loop body sets the flag and
breaks at the first rune above 0x7F. -/
def scanNonASCII : List Nat → Bool
  | [] => false
  | r :: rs => if r > 0x7F then true else scanNonASCII rs

/-- The value of `smsInfo.UnicodeCoding` after the check. -/
def unicodeCoding (text : GoString) : Bool := scanNonASCII (rangeString text)

/-- The length of `msgUnicode`: `(len(text)+1)*2` bytes. -/
def msgUnicodeLen (text : GoString) : Nat := (text.length + 1) * 2

/-! ## Long messages -/

/-- The multi-part info `SendLongSMS` hands to the native encoder. -/
def SendLongSMS_info (N : Native) (text : GoString) : GSM_MultiPartSMSInfo :=
  { Class := 1
    EntriesNum := 1
    UnicodeCoding := unicodeCoding text
    Entries0 := { ID := EncodeMultiPartSMSID.SMS_ConcatenatedTextLong, Buffer := decodeUTF8 N text } }

/-- The copy of a segment that the send loop hands to `sendSMS`: the destination
number is stamped and the PDU type set. -/
def prepareSegment (N : Native) (number : GoString) (seg : GSM_SMSMessage) : GSM_SMSMessage :=
  let sms := seg
  let sms := { sms with Number := decodeUTF8 N number }
  { sms with PDU := GSM_SMSMessageType.SMS_Submit }

/-- The send loop of `SendLongSMS`, `for i := 0; i < int(msms.Number); i++`,
with `rem` iterations left at index `i`.  Indexing the segment array out of
range is a Go panic. -/
def sendLoop (N : Native) (fuel : Nat) (number : GoString) (msms : GSM_MultiSMSMessage) :
    Nat → Nat → StateMachine → World → Exit × StateMachine × World
  | 0, _, sm, w => (Exit.returned none, sm, w)
  | rem + 1, i, sm, w =>
    match msms.SMS[i]? with
    | none => (Exit.panicked, sm, w)
    | some seg =>
      match sendSMS N fuel sm w (prepareSegment N number seg) with
      | (Exit.returned none, sm1, w1) => sendLoop N fuel number msms rem (i + 1) sm1 w1
      | out => out

/-- The method `SendLongSMS`. -/
def SendLongSMS (N : Native) (fuel : Nat) (sm : StateMachine) (w : World)
    (number text : GoString) : Exit × StateMachine × World :=
  let smsInfo := SendLongSMS_info N text
  let r := N.GSM_EncodeMultiPartSMS smsInfo
  if r.1 ≠ GSM_Error.ERR_NONE then (Exit.returned (some r.1), sm, w)
  else sendLoop N fuel number r.2 r.2.Number.toNat 0 sm w

/-! ## Lifecycle of the handle -/

/-- The method `Free`. -/
def Free (sm : StateMachine) (w : World) : StateMachine × World :=
  let w1 := w.record (Call.FreeStateMachine sm.g)
  ({ sm with g := none }, w1)

/-- A call `p.Free()` through a pointer that may be nil: reading `sm.g` through
the nil pointer is a Go panic, and the result is `none`. -/
def FreeAt (p : Option StateMachine) (w : World) : Option (StateMachine × World) :=
  match p with
  | none => none
  | some sm => some (Free sm w)

/-- The zero value `var sm StateMachine`; the status cell holds the number 0,
which is no member the binding names. -/
def StateMachine.zero : StateMachine :=
  { g := none, smsc := GSM_SMSC.zero, status := GSM_Error.ERR_OTHER 0, Timeout := 0 }

/-- The Go constant `time.Second`, in nanoseconds. -/
def Second : Int := 1000000000

/-- What `NewStateMachine` gives back: a state machine and a nil error, a nil
pointer and an error, or a panic. -/
inductive Created where
  | ok (sm : StateMachine)
  | failed (e : GSM_Error)
  | panicked
  deriving DecidableEq, Repr

/-- The function `NewStateMachine`.  An oracle of the lifecycle is asked at the
number of native calls made so far. -/
def NewStateMachine (N : Native) (w : World) (cf : GoString) : Created × World :=
  let sm := StateMachine.zero
  let arg : Option GoString := if cf ≠ [] then some cf else none
  let e := N.GSM_FindGammuRC w.log.length arg
  let w1 := w.record (Call.FindGammuRC arg)
  if e ≠ GSM_Error.ERR_NONE then (Created.failed e, w1)
  else
    let h := N.GSM_AllocStateMachine w1.log.length
    let sm := { sm with g := h }
    let w2 := w1.record Call.AllocStateMachine
    if sm.g = none then (Created.panicked, w2.record Call.INI_Free)
    else
      let e := N.GSM_ReadConfig w2.log.length sm.g
      let w3 := w2.record (Call.ReadConfig sm.g)
      if e ≠ GSM_Error.ERR_NONE then
        let r := Free sm w3
        (Created.failed e, r.2.record Call.INI_Free)
      else
        let w4 := w3.record (Call.SetConfigNum sm.g 1)
        let sm := { sm with Timeout := 10 * Second }
        (Created.ok sm, w4.record Call.INI_Free)

/-- The method `Connect`. -/
def Connect (N : Native) (sm : StateMachine) (w : World) : Option GSM_Error × StateMachine × World :=
  let e := N.GSM_InitConnection w.log.length sm.g 1
  let w1 := w.record (Call.InitConnection sm.g 1)
  if e ≠ GSM_Error.ERR_NONE then (some e, sm, w1)
  else
    let w2 := w1.record (Call.SetStatusCallback sm.g)
    let sm := { sm with smsc := { sm.smsc with Location := 1 } }
    let r := N.GSM_GetSMSC w2.log.length sm.g sm.smsc
    let sm := { sm with smsc := r.2 }
    let w3 := w2.record (Call.GetSMSC sm.g)
    if r.1 ≠ GSM_Error.ERR_NONE then (some r.1, sm, w3)
    else (none, sm, w3)

/-- The method `Disconnect`. -/
def Disconnect (N : Native) (sm : StateMachine) (w : World) : Option GSM_Error × StateMachine × World :=
  let e := N.GSM_TerminateConnection w.log.length sm.g
  let w1 := w.record (Call.TerminateConnection sm.g)
  if e ≠ GSM_Error.ERR_NONE then (some e, sm, w1)
  else (none, sm, w1)

/-! ## Notions used to state the properties -/

/-- The state machine on which `sendSMS` enters its wait loop. -/
def armed (sm : StateMachine) : StateMachine := { sm with status := GSM_Error.ERR_TIMEOUT }

/-- The world in which `sendSMS` enters its wait loop after an accepted
submission: the submission is logged and the start time was read. -/
def submittedWorld (sm : StateMachine) (w : World) (sms : GSM_SMSMessage) : World :=
  ⟨w.nNow + 1, w.nPump, w.nSubmit + 1, Call.SendSMS sm.g (stampSMSC sm sms) :: w.log⟩

/-- The messages submitted to `GSM_SendSMS` according to a log, oldest first. -/
def submitted : List Call → List GSM_SMSMessage
  | [] => []
  | Call.SendSMS _ m :: rest => submitted rest ++ [m]
  | _ :: rest => submitted rest

/-- The pumps recorded in a log. -/
def pumps (log : List Call) : Nat :=
  (log.filter (fun c => match c with | Call.ReadDevice _ => true | _ => false)).length

/-- The contexts handed to the native free operation according to a log, oldest
first. -/
def freed : List Call → List Handle
  | [] => []
  | Call.FreeStateMachine g :: rest => freed rest ++ [g]
  | _ :: rest => freed rest

/-- Every send of the given segments, in order, returned nil: `AllSent segs sm w
sm1 w1` leads from the state `sm`, `w` before the first send to the state
`sm1`, `w1` after the last. -/
inductive AllSent (N : Native) (fuel : Nat) (number : GoString) :
    List GSM_SMSMessage → StateMachine → World → StateMachine → World → Prop where
  | nil (sm : StateMachine) (w : World) : AllSent N fuel number [] sm w sm w
  | cons (seg : GSM_SMSMessage) (rest : List GSM_SMSMessage) (sm sm1 sm2 : StateMachine)
      (w w1 w2 : World)
      (hsend : sendSMS N fuel sm w (prepareSegment N number seg) = (Exit.returned none, sm1, w1))
      (hrest : AllSent N fuel number rest sm1 w1 sm2 w2) :
      AllSent N fuel number (seg :: rest) sm w sm2 w2

/-- The pointer `NewStateMachine` hands back: nil unless it succeeded. -/
def Created.pointer : Created → Option StateMachine
  | Created.ok sm => some sm
  | _ => none

/-! ## UTF-8 and UTF-16 of the Unicode standard

Used to state what a valid UTF-8 text is and how many UTF-16 code units it
takes. -/

/-- A Unicode scalar value: a code point up to 0x10FFFF that is no surrogate. -/
def isScalar (c : Nat) : Prop := c < 0xD800 ∨ (0xE000 ≤ c ∧ c ≤ 0x10FFFF)

instance (c : Nat) : Decidable (isScalar c) := by
  unfold isScalar
  infer_instance

/-- The UTF-8 bytes of one code point. -/
def utf8Bytes (c : Nat) : List Nat :=
  if c < 0x80 then [c]
  else if c < 0x800 then [0xC0 + c / 64, 0x80 + c % 64]
  else if c < 0x10000 then [0xE0 + c / 4096, 0x80 + c / 64 % 64, 0x80 + c % 64]
  else [0xF0 + c / 262144, 0x80 + c / 4096 % 64, 0x80 + c / 64 % 64, 0x80 + c % 64]

/-- The UTF-8 encoding of a sequence of code points. -/
def utf8Encode : List Nat → GoString
  | [] => []
  | c :: cs => utf8Bytes c ++ utf8Encode cs

/-- The UTF-16 code units of one code point: itself in the basic plane, a
surrogate pair above. -/
def utf16Units (c : Nat) : List Nat :=
  if c < 0x10000 then [c]
  else [0xD800 + (c - 0x10000) / 1024, 0xDC00 + (c - 0x10000) % 1024]

/-- The UTF-16 encoding of a sequence of code points. -/
def utf16Encode : List Nat → UString
  | [] => []
  | c :: cs => utf16Units c ++ utf16Encode cs

/-! ## Sample environments -/

/-- Three segments in an array of four, as an encoder may leave them. -/
def threeSegments : GSM_MultiSMSMessage :=
  { Number := 3
    SMS := [ { GSM_SMSMessage.zero with Text := [0x61], Class := 1 },
             { GSM_SMSMessage.zero with Text := [0x62], Class := 1 },
             { GSM_SMSMessage.zero with Text := [0x63], Class := 1 },
             GSM_SMSMessage.zero ] }

/-- A device that accepts every submission and never confirms; the clock
advances four seconds between readings; every lifecycle call succeeds and the
first context is number 1. -/
def quietNative : Native :=
  { GSM_SendSMS := fun _ _ _ => GSM_Error.ERR_NONE
    GSM_ReadDevice := fun _ _ => []
    now := fun n => 4 * Second * n
    DecodeUTF8 := fun s => utf16Encode (rangeString s)
    GSM_EncodeMultiPartSMS := fun _ => (GSM_Error.ERR_NONE, threeSegments)
    GSM_FindGammuRC := fun _ _ => GSM_Error.ERR_NONE
    GSM_AllocStateMachine := fun n => some n
    GSM_ReadConfig := fun _ _ => GSM_Error.ERR_NONE
    GSM_InitConnection := fun _ _ _ => GSM_Error.ERR_NONE
    GSM_GetSMSC := fun _ _ smsc => (GSM_Error.ERR_NONE, { smsc with Number := [0x2B, 0x31] })
    GSM_TerminateConnection := fun _ _ => GSM_Error.ERR_NONE }

/-- A device that confirms each submission at the second pump after it, the
second submission with a failure status. -/
def ackNative : Native :=
  { quietNative with
    GSM_ReadDevice := fun n _ => if n % 2 = 1 then (if n = 3 then [5] else [0]) else [] }

/-- A library that refuses every submission and every connection with code 33,
as on a handle that is not connected. -/
def refusingNative : Native :=
  { quietNative with
    GSM_SendSMS := fun _ _ _ => GSM_Error.ERR_OTHER 33
    GSM_InitConnection := fun _ _ _ => GSM_Error.ERR_OTHER 33 }

/-- A library that finds a configuration file but cannot read it. -/
def badConfigNative : Native :=
  { quietNative with GSM_ReadConfig := fun _ _ => GSM_Error.ERR_OTHER 2 }

/-- A state machine as `NewStateMachine` creates it on `quietNative`: context
1, no SMSC fetched yet, ten seconds of timeout. -/
def freshSM : StateMachine :=
  { g := some 1, smsc := GSM_SMSC.zero, status := GSM_Error.ERR_OTHER 0, Timeout := 10 * Second }

/-- The same state machine after a successful `Connect` on `quietNative`. -/
def connectedSM : StateMachine :=
  { freshSM with smsc := { Location := 1, Number := [0x2B, 0x31] } }

/-- The Go string "123456". -/
def sampleNumber : GoString := [0x31, 0x32, 0x33, 0x34, 0x35, 0x36]

/-- The Go string "hi". -/
def sampleText : GoString := [0x68, 0x69]

/-! ## Properties of the poll loop -/

/-- A pump during which the callback does not fire leaves the status cell. -/
theorem fireCallbacks_nil (cell : GSM_Error) : fireCallbacks cell [] = cell := rfl

/-- While no pump fires the callback, the loop runs to the first check at which
the deadline is reached: it ends by its condition, the state machine is
untouched and the world gained one pump for each earlier check. -/
theorem pollLoop_idle (N : Native) (t : Int) (k : Nat) :
    ∀ (fuel : Nat) (sm : StateMachine) (w : World),
      sm.status = GSM_Error.ERR_TIMEOUT →
      (∀ n, N.GSM_ReadDevice n sm.g = []) →
      sm.Timeout ≤ N.now (w.nNow + k) - t →
      k < fuel →
      ∃ j, j ≤ k ∧ pollLoop N t fuel sm w =
        (true, sm, ⟨w.nNow + j + 1, w.nPump + j, w.nSubmit,
          List.replicate j (Call.ReadDevice sm.g) ++ w.log⟩) := by
  induction k with
  | zero =>
    intro fuel sm w _ _ hdead hfuel
    obtain ⟨f, rfl⟩ : ∃ f, fuel = f + 1 := ⟨fuel - 1, by omega⟩
    refine ⟨0, le_refl 0, ?_⟩
    have hc : ¬ (N.now w.nNow - t < sm.Timeout) := by
      simpa using hdead
    simp [pollLoop, hc]
  | succ k ih =>
    intro fuel sm w hst hidle hdead hfuel
    obtain ⟨f, rfl⟩ : ∃ f, fuel = f + 1 := ⟨fuel - 1, by omega⟩
    obtain ⟨g, smsc, status, T⟩ := sm
    simp only at hst hidle hdead
    subst hst
    by_cases hc : N.now w.nNow - t < T
    · obtain ⟨j, hj, hrun⟩ := ih f ⟨g, smsc, GSM_Error.ERR_TIMEOUT, T⟩
        ⟨w.nNow + 1, w.nPump + 1, w.nSubmit, Call.ReadDevice g :: w.log⟩ rfl hidle
        (by simpa [Nat.add_assoc, Nat.add_comm 1 k] using hdead) (by omega)
      refine ⟨j + 1, by omega, ?_⟩
      rw [pollLoop]
      simp only [hc, if_true, World.record, hidle, fireCallbacks_nil]
      simp only [ne_eq, not_true_eq_false, if_false, reduceCtorEq]
      rw [hrun]
      simp [List.replicate_succ', Nat.add_assoc, Nat.add_comm 1 j]
    · refine ⟨0, Nat.zero_le _, ?_⟩
      simp [pollLoop, hc]

/-- The shape of every run of the poll loop entered with the sentinel status:
it only adds pumps to the log, it leaves the handle, the SMSC descriptor, the
timeout and the submission count alone, every pump but the last left the
sentinel in place, and the final status is the sentinel or what the last pump
left. -/
theorem pollLoop_shape (N : Native) (t : Int) :
    ∀ (fuel : Nat) (sm : StateMachine) (w : World),
      sm.status = GSM_Error.ERR_TIMEOUT →
      ∃ j, j ≤ fuel ∧
        (pollLoop N t fuel sm w).2.2.log = List.replicate j (Call.ReadDevice sm.g) ++ w.log ∧
        (pollLoop N t fuel sm w).2.2.nPump = w.nPump + j ∧
        (pollLoop N t fuel sm w).2.2.nSubmit = w.nSubmit ∧
        (pollLoop N t fuel sm w).2.1.g = sm.g ∧
        (pollLoop N t fuel sm w).2.1.smsc = sm.smsc ∧
        (pollLoop N t fuel sm w).2.1.Timeout = sm.Timeout ∧
        (∀ i, i + 1 < j →
          fireCallbacks GSM_Error.ERR_TIMEOUT (N.GSM_ReadDevice (w.nPump + i) sm.g)
            = GSM_Error.ERR_TIMEOUT) ∧
        ((pollLoop N t fuel sm w).2.1.status = GSM_Error.ERR_TIMEOUT ∨
          (0 < j ∧ (pollLoop N t fuel sm w).2.1.status =
            fireCallbacks GSM_Error.ERR_TIMEOUT (N.GSM_ReadDevice (w.nPump + (j - 1)) sm.g))) := by
  intro fuel
  induction fuel with
  | zero =>
    intro sm w hst
    exact ⟨0, le_refl 0, by simp [pollLoop], by simp [pollLoop], by simp [pollLoop],
      by simp [pollLoop], by simp [pollLoop], by simp [pollLoop],
      fun i hi => absurd hi (by omega), Or.inl (by simpa [pollLoop] using hst)⟩
  | succ f ih =>
    intro sm w hst
    obtain ⟨g, smsc, status, T⟩ := sm
    simp only at hst
    subst hst
    by_cases hc : N.now w.nNow - t < T
    · by_cases h1 : fireCallbacks GSM_Error.ERR_TIMEOUT (N.GSM_ReadDevice w.nPump g)
          = GSM_Error.ERR_NONE
      · refine ⟨1, by omega, ?_, ?_, ?_, ?_, ?_, ?_, fun i hi => absurd hi (by omega), Or.inr ⟨by omega, ?_⟩⟩ <;>
          simp [pollLoop, hc, h1, World.record]
      · by_cases h2 : fireCallbacks GSM_Error.ERR_TIMEOUT (N.GSM_ReadDevice w.nPump g)
            = GSM_Error.ERR_TIMEOUT
        · obtain ⟨j, hj, hlog, hpump, hsub, hg, hsmsc, hT, hmid, hlast⟩ :=
            ih ⟨g, smsc, GSM_Error.ERR_TIMEOUT, T⟩
              ⟨w.nNow + 1, w.nPump + 1, w.nSubmit, Call.ReadDevice g :: w.log⟩ rfl
          have hrun : pollLoop N t (f + 1) ⟨g, smsc, GSM_Error.ERR_TIMEOUT, T⟩ w =
              pollLoop N t f ⟨g, smsc, GSM_Error.ERR_TIMEOUT, T⟩
                ⟨w.nNow + 1, w.nPump + 1, w.nSubmit, Call.ReadDevice g :: w.log⟩ := by
            rw [pollLoop]
            simp [hc, h2, World.record]
          rw [hrun]
          simp only at hlog hpump hsub hg hsmsc hT hmid hlast
          refine ⟨j + 1, by omega, ?_, ?_, hsub, hg, hsmsc, hT, ?_, ?_⟩
          · rw [hlog]; simp [List.replicate_succ']
          · rw [hpump]; omega
          · intro i hi
            cases i with
            | zero => simpa using h2
            | succ i =>
              have := hmid i (by omega)
              simpa [Nat.add_assoc, Nat.add_comm 1 i] using this
          · rcases hlast with h | ⟨hpos, h⟩
            · exact Or.inl h
            · refine Or.inr ⟨by omega, ?_⟩
              rw [h]
              have hidx : w.nPump + 1 + (j - 1) = w.nPump + (j + 1 - 1) := by omega
              rw [hidx]
        · refine ⟨1, by omega, ?_, ?_, ?_, ?_, ?_, ?_, fun i hi => absurd hi (by omega), Or.inr ⟨by omega, ?_⟩⟩ <;>
            simp [pollLoop, hc, h1, h2, World.record]
    · refine ⟨0, by omega, ?_, ?_, ?_, ?_, ?_, ?_, fun i hi => absurd hi (by omega), Or.inl ?_⟩ <;>
        simp [pollLoop, hc]

/-- When the deadline is reached at the check after `k` pumps, the loop ends
within `k + 1` units of fuel, whatever the pumps do. -/
theorem pollLoop_ends (N : Native) (t : Int) (k : Nat) :
    ∀ (fuel : Nat) (sm : StateMachine) (w : World),
      sm.Timeout ≤ N.now (w.nNow + k) - t → k < fuel →
      (pollLoop N t fuel sm w).1 = true := by
  induction k with
  | zero =>
    intro fuel sm w hdead hfuel
    obtain ⟨f, rfl⟩ : ∃ f, fuel = f + 1 := ⟨fuel - 1, by omega⟩
    have hc : ¬ (N.now w.nNow - t < sm.Timeout) := by simpa using hdead
    simp [pollLoop, hc]
  | succ k ih =>
    intro fuel sm w hdead hfuel
    obtain ⟨f, rfl⟩ : ∃ f, fuel = f + 1 := ⟨fuel - 1, by omega⟩
    rw [pollLoop]
    by_cases hc : N.now w.nNow - t < sm.Timeout
    · simp only [hc, if_true]
      split
      · rfl
      · split
        · rfl
        · apply ih
          · simpa [World.record, Nat.add_assoc, Nat.add_comm 1 k] using hdead
          · omega
    · simp [hc]

/-- When the first `k` pumps leave the sentinel, the next pump changes the
status and the deadline is not reached at the checks before these pumps, the
loop makes exactly `k + 1` pumps and ends with the status left by the last. -/
theorem pollLoop_fires (N : Native) (t : Int) (k : Nat) :
    ∀ (fuel : Nat) (sm : StateMachine) (w : World),
      sm.status = GSM_Error.ERR_TIMEOUT →
      (∀ i, i < k →
        fireCallbacks GSM_Error.ERR_TIMEOUT (N.GSM_ReadDevice (w.nPump + i) sm.g)
          = GSM_Error.ERR_TIMEOUT) →
      fireCallbacks GSM_Error.ERR_TIMEOUT (N.GSM_ReadDevice (w.nPump + k) sm.g)
        ≠ GSM_Error.ERR_TIMEOUT →
      (∀ i, i ≤ k → N.now (w.nNow + i) - t < sm.Timeout) →
      k < fuel →
      pollLoop N t fuel sm w =
        (true,
          { sm with status :=
              fireCallbacks GSM_Error.ERR_TIMEOUT (N.GSM_ReadDevice (w.nPump + k) sm.g) },
          ⟨w.nNow + k + 1, w.nPump + k + 1, w.nSubmit,
            List.replicate (k + 1) (Call.ReadDevice sm.g) ++ w.log⟩) := by
  induction k with
  | zero =>
    intro fuel sm w hst _ hfire hclock hfuel
    obtain ⟨f, rfl⟩ : ∃ f, fuel = f + 1 := ⟨fuel - 1, by omega⟩
    obtain ⟨g, smsc, status, T⟩ := sm
    simp only at hst hfire hclock
    subst hst
    have hc : N.now w.nNow - t < T := by simpa using hclock 0 (le_refl 0)
    simp only [Nat.add_zero] at hfire
    rw [pollLoop]
    by_cases h1 : fireCallbacks GSM_Error.ERR_TIMEOUT (N.GSM_ReadDevice w.nPump g)
        = GSM_Error.ERR_NONE
    · simp [hc, h1, World.record]
    · simp [hc, h1, hfire, World.record]
  | succ k ih =>
    intro fuel sm w hst hmid hfire hclock hfuel
    obtain ⟨f, rfl⟩ : ∃ f, fuel = f + 1 := ⟨fuel - 1, by omega⟩
    obtain ⟨g, smsc, status, T⟩ := sm
    simp only at hst hmid hfire hclock
    subst hst
    have hc : N.now w.nNow - t < T := by simpa using hclock 0 (Nat.zero_le _)
    have h0 : fireCallbacks GSM_Error.ERR_TIMEOUT (N.GSM_ReadDevice w.nPump g)
        = GSM_Error.ERR_TIMEOUT := by simpa using hmid 0 (Nat.succ_pos k)
    have hrun := ih f ⟨g, smsc, GSM_Error.ERR_TIMEOUT, T⟩
      ⟨w.nNow + 1, w.nPump + 1, w.nSubmit, Call.ReadDevice g :: w.log⟩ rfl
      (fun i hi => by
        have := hmid (i + 1) (by omega)
        simpa [Nat.add_assoc, Nat.add_comm 1 i] using this)
      (by simpa [Nat.add_assoc, Nat.add_comm 1 k] using hfire)
      (fun i hi => by
        have := hclock (i + 1) (by omega)
        simpa [Nat.add_assoc, Nat.add_comm 1 i] using this)
      (by omega)
    rw [pollLoop]
    simp only [hc, if_true, World.record, h0]
    simp only [ne_eq, not_true_eq_false, if_false, reduceCtorEq]
    rw [hrun]
    simp [List.replicate_succ', Nat.add_assoc, Nat.add_comm 1 k]

/-! ## Properties of `sendSMS` -/

/-- After an accepted submission `sendSMS` is its wait loop followed by the
final test of the status field. -/
theorem sendSMS_accepted (N : Native) (fuel : Nat) (sm : StateMachine) (w : World)
    (sms : GSM_SMSMessage)
    (hsub : N.GSM_SendSMS w.nSubmit sm.g (stampSMSC sm sms) = GSM_Error.ERR_NONE) :
    sendSMS N fuel sm w sms =
      ((if (pollLoop N (N.now w.nNow) fuel (armed sm) (submittedWorld sm w sms)).1 then
          (if (pollLoop N (N.now w.nNow) fuel (armed sm) (submittedWorld sm w sms)).2.1.status
              = GSM_Error.ERR_NONE then Exit.returned none
            else Exit.returned (some
              (pollLoop N (N.now w.nNow) fuel (armed sm) (submittedWorld sm w sms)).2.1.status))
        else Exit.unfinished),
        (pollLoop N (N.now w.nNow) fuel (armed sm) (submittedWorld sm w sms)).2) := by
  simp only [sendSMS, hsub, World.record, ne_eq, not_true_eq_false, if_false]
  show (match pollLoop N (N.now w.nNow) fuel (armed sm) (submittedWorld sm w sms) with
    | (false, sm2, w3) => (Exit.unfinished, sm2, w3)
    | (true, sm2, w3) =>
      if ¬ sm2.status = GSM_Error.ERR_NONE then (Exit.returned (some sm2.status), sm2, w3)
      else (Exit.returned none, sm2, w3)) = _
  rcases pollLoop N (N.now w.nNow) fuel (armed sm) (submittedWorld sm w sms) with ⟨b, sm2, w3⟩
  cases b
  · simp
  · by_cases h : sm2.status = GSM_Error.ERR_NONE <;> simp [h]

/-- After a rejected submission `sendSMS` returns the code at once. -/
theorem sendSMS_rejected (N : Native) (fuel : Nat) (sm : StateMachine) (w : World)
    (sms : GSM_SMSMessage)
    (hsub : N.GSM_SendSMS w.nSubmit sm.g (stampSMSC sm sms) ≠ GSM_Error.ERR_NONE) :
    sendSMS N fuel sm w sms =
      (Exit.returned (some (N.GSM_SendSMS w.nSubmit sm.g (stampSMSC sm sms))), armed sm,
        ⟨w.nNow, w.nPump, w.nSubmit + 1, Call.SendSMS sm.g (stampSMSC sm sms) :: w.log⟩) := by
  simp [sendSMS, hsub, World.record, armed]

/-- The shape of every run of `sendSMS`: one submission of the stamped message,
then pumps only; handle, SMSC descriptor and timeout are left alone; every pump
but the last left the sentinel in place. -/
theorem sendSMS_shape (N : Native) (fuel : Nat) (sm : StateMachine) (w : World)
    (sms : GSM_SMSMessage) :
    ∃ j, j ≤ fuel ∧
      (sendSMS N fuel sm w sms).2.2.log =
        List.replicate j (Call.ReadDevice sm.g) ++ Call.SendSMS sm.g (stampSMSC sm sms) :: w.log ∧
      (sendSMS N fuel sm w sms).2.2.nPump = w.nPump + j ∧
      (sendSMS N fuel sm w sms).2.2.nSubmit = w.nSubmit + 1 ∧
      (sendSMS N fuel sm w sms).2.1.g = sm.g ∧
      (sendSMS N fuel sm w sms).2.1.smsc = sm.smsc ∧
      (sendSMS N fuel sm w sms).2.1.Timeout = sm.Timeout ∧
      (∀ i, i + 1 < j →
        fireCallbacks GSM_Error.ERR_TIMEOUT (N.GSM_ReadDevice (w.nPump + i) sm.g)
          = GSM_Error.ERR_TIMEOUT) ∧
      ((sendSMS N fuel sm w sms).2.1.status = GSM_Error.ERR_TIMEOUT ∨
        (0 < j ∧ (sendSMS N fuel sm w sms).2.1.status =
          fireCallbacks GSM_Error.ERR_TIMEOUT (N.GSM_ReadDevice (w.nPump + (j - 1)) sm.g))) := by
  by_cases hsub : N.GSM_SendSMS w.nSubmit sm.g (stampSMSC sm sms) = GSM_Error.ERR_NONE
  · obtain ⟨j, hj, hlog, hpump, hsb, hg, hsmsc, hT, hmid, hlast⟩ :=
      pollLoop_shape N (N.now w.nNow) fuel (armed sm) (submittedWorld sm w sms) rfl
    rw [sendSMS_accepted N fuel sm w sms hsub]
    exact ⟨j, hj, hlog, hpump, hsb, hg, hsmsc, hT, hmid, hlast⟩
  · rw [sendSMS_rejected N fuel sm w sms hsub]
    exact ⟨0, Nat.zero_le _, by simp, by simp, by simp, by simp [armed], by simp [armed],
      by simp [armed], fun i hi => absurd hi (by omega), Or.inl (by simp [armed])⟩

/-! ## Properties of the send loop -/

/-- Pumps add no submission to a log. -/
theorem submitted_pumps (g : Handle) (l : List Call) :
    ∀ j : Nat, submitted (List.replicate j (Call.ReadDevice g) ++ l) = submitted l
  | 0 => by simp
  | j + 1 => by
    rw [List.replicate_succ, List.cons_append, submitted]
    · exact submitted_pumps g l j
    · intro g1 m h; cases h

/-- A run of `sendSMS` submits one message, the stamped one. -/
theorem sendSMS_submitted (N : Native) (fuel : Nat) (sm : StateMachine) (w : World)
    (sms : GSM_SMSMessage) :
    submitted (sendSMS N fuel sm w sms).2.2.log = submitted w.log ++ [stampSMSC sm sms] := by
  obtain ⟨j, _, hlog, _⟩ := sendSMS_shape N fuel sm w sms
  rw [hlog, submitted_pumps, submitted]

/-- The stamp depends on the stored SMSC descriptor only. -/
theorem stampSMSC_congr (sm sm1 : StateMachine) (m : GSM_SMSMessage) (h : sm1.smsc = sm.smsc) :
    stampSMSC sm1 m = stampSMSC sm m := by
  simp [stampSMSC, h]

/-- A chain of successful sends keeps the handle, the SMSC descriptor and the
timeout, and submits the stamped segments in order. -/
theorem AllSent_frame (N : Native) (fuel : Nat) (number : GoString)
    (segs : List GSM_SMSMessage) (sm sm1 : StateMachine) (w w1 : World)
    (h : AllSent N fuel number segs sm w sm1 w1) :
    sm1.g = sm.g ∧ sm1.smsc = sm.smsc ∧ sm1.Timeout = sm.Timeout ∧
    submitted w1.log = submitted w.log ++
      segs.map (fun seg => stampSMSC sm (prepareSegment N number seg)) := by
  induction h with
  | nil sm w => simp
  | cons seg rest sm sm1 sm2 w w1 w2 hsend _ ih =>
    obtain ⟨hg, hsmsc, hT, hsub⟩ := ih
    obtain ⟨j, _, _, _, _, hg1, hsmsc1, hT1, _⟩ :=
      sendSMS_shape N fuel sm w (prepareSegment N number seg)
    have hs := sendSMS_submitted N fuel sm w (prepareSegment N number seg)
    rw [hsend] at hg1 hsmsc1 hT1 hs
    simp only at hg1 hsmsc1 hT1 hs
    refine ⟨hg.trans hg1, hsmsc.trans hsmsc1, hT.trans hT1, ?_⟩
    rw [hsub, hs]
    have : (fun seg => stampSMSC sm1 (prepareSegment N number seg)) =
        (fun seg => stampSMSC sm (prepareSegment N number seg)) := by
      funext x
      exact stampSMSC_congr sm sm1 _ hsmsc1
    rw [this]
    simp

/-- One iteration of the send loop on a segment within the array. -/
theorem sendLoop_succ (N : Native) (fuel : Nat) (number : GoString) (msms : GSM_MultiSMSMessage)
    (rem i : Nat) (sm : StateMachine) (w : World) (seg : GSM_SMSMessage)
    (hseg : msms.SMS[i]? = some seg) :
    sendLoop N fuel number msms (rem + 1) i sm w =
      (match sendSMS N fuel sm w (prepareSegment N number seg) with
        | (Exit.returned none, sm1, w1) => sendLoop N fuel number msms rem (i + 1) sm1 w1
        | out => out) := by
  rw [sendLoop, hseg]

/-- The next `rem + 1` segments from index `i` start with segment `i`. -/
theorem take_drop_succ (l : List GSM_SMSMessage) (rem i : Nat) (seg : GSM_SMSMessage)
    (hseg : l[i]? = some seg) :
    (l.drop i).take (rem + 1) = seg :: (l.drop (i + 1)).take rem := by
  obtain ⟨hi, rfl⟩ := List.getElem?_eq_some_iff.mp hseg
  rw [List.drop_eq_getElem_cons hi, List.take_succ_cons]

/-- If the loop returns nil, every send of the remaining segments, in index
order, returned nil. -/
theorem sendLoop_nil_all (N : Native) (fuel : Nat) (number : GoString)
    (msms : GSM_MultiSMSMessage) :
    ∀ (rem i : Nat) (sm sm1 : StateMachine) (w w1 : World),
      i + rem ≤ msms.SMS.length →
      sendLoop N fuel number msms rem i sm w = (Exit.returned none, sm1, w1) →
      AllSent N fuel number ((msms.SMS.drop i).take rem) sm w sm1 w1 := by
  intro rem
  induction rem with
  | zero =>
    intro i sm sm1 w w1 _ h
    simp only [sendLoop, Prod.mk.injEq, true_and] at h
    obtain ⟨rfl, rfl⟩ := h
    simpa using AllSent.nil sm w
  | succ r ih =>
    intro i sm sm1 w w1 hlen h
    have hi : i < msms.SMS.length := by omega
    have hseg : msms.SMS[i]? = some msms.SMS[i] := List.getElem?_eq_getElem hi
    rw [sendLoop_succ N fuel number msms r i sm w _ hseg] at h
    rw [take_drop_succ _ r i _ hseg]
    rcases hs : sendSMS N fuel sm w (prepareSegment N number msms.SMS[i]) with ⟨x, sm2, w2⟩
    rw [hs] at h
    cases x with
    | returned err =>
      cases err with
      | none =>
        simp only at h
        exact AllSent.cons _ _ sm sm2 sm1 w w2 w1 hs (ih (i + 1) sm2 sm1 w2 w1 (by omega) h)
      | some e => simp at h
    | panicked => simp at h
    | unfinished => simp at h

/-- If the sends of the first `k` remaining segments returned nil and the send
of the next one did not, the loop ends with the outcome of that send. -/
theorem sendLoop_first_failure (N : Native) (fuel : Nat) (number : GoString)
    (msms : GSM_MultiSMSMessage) :
    ∀ (k rem i : Nat) (sm smk : StateMachine) (w wk : World) (seg : GSM_SMSMessage)
      (out : Exit × StateMachine × World),
      k < rem → i + rem ≤ msms.SMS.length →
      AllSent N fuel number ((msms.SMS.drop i).take k) sm w smk wk →
      msms.SMS[i + k]? = some seg →
      sendSMS N fuel smk wk (prepareSegment N number seg) = out →
      out.1 ≠ Exit.returned none →
      sendLoop N fuel number msms rem i sm w = out := by
  intro k
  induction k with
  | zero =>
    intro rem i sm smk w wk seg out hk _ hall hseg hsend hne
    obtain ⟨r, rfl⟩ : ∃ r, rem = r + 1 := ⟨rem - 1, by omega⟩
    simp only [List.take_zero] at hall
    cases hall
    rw [sendLoop_succ N fuel number msms r i sm w seg (by simpa using hseg), hsend]
    obtain ⟨x, sm2, w2⟩ := out
    cases x with
    | returned err =>
      cases err with
      | none => exact absurd rfl hne
      | some e => rfl
    | panicked => rfl
    | unfinished => rfl
  | succ k ih =>
    intro rem i sm smk w wk seg out hk hlen hall hseg hsend hne
    obtain ⟨r, rfl⟩ : ∃ r, rem = r + 1 := ⟨rem - 1, by omega⟩
    have hi : i < msms.SMS.length := by omega
    have hseg0 : msms.SMS[i]? = some msms.SMS[i] := List.getElem?_eq_getElem hi
    rw [take_drop_succ _ k i _ hseg0] at hall
    cases hall with
    | cons _ _ _ sm1 _ _ w1 _ hs hrest =>
      rw [sendLoop_succ N fuel number msms r i sm w _ hseg0, hs]
      exact ih r (i + 1) sm1 smk w1 wk seg out (by omega) (by omega) hrest
        (by simpa [Nat.add_assoc, Nat.add_comm 1 k] using hseg) hsend hne

/-- The send loop does not panic when the segment count is within the array. -/
theorem sendLoop_no_panic (N : Native) (fuel : Nat) (number : GoString)
    (msms : GSM_MultiSMSMessage) :
    ∀ (rem i : Nat) (sm : StateMachine) (w : World),
      i + rem ≤ msms.SMS.length →
      (sendLoop N fuel number msms rem i sm w).1 ≠ Exit.panicked := by
  intro rem
  induction rem with
  | zero => intro i sm w _; simp [sendLoop]
  | succ r ih =>
    intro i sm w hlen
    have hi : i < msms.SMS.length := by omega
    have hseg : msms.SMS[i]? = some msms.SMS[i] := List.getElem?_eq_getElem hi
    rw [sendLoop_succ N fuel number msms r i sm w _ hseg]
    rcases hs : sendSMS N fuel sm w (prepareSegment N number msms.SMS[i]) with ⟨x, sm2, w2⟩
    have hx : x ≠ Exit.panicked := by
      have := congrArg Prod.fst hs
      simp only at this
      rw [← this]
      by_cases hsub : N.GSM_SendSMS w.nSubmit sm.g
          (stampSMSC sm (prepareSegment N number msms.SMS[i])) = GSM_Error.ERR_NONE
      · rw [sendSMS_accepted N fuel sm w _ hsub]
        simp only
        split
        · split <;> simp
        · simp
      · rw [sendSMS_rejected N fuel sm w _ hsub]
        simp
    cases x with
    | returned err =>
      cases err with
      | none => exact ih (i + 1) sm2 w2 (by omega)
      | some e => simp
    | panicked => exact absurd rfl hx
    | unfinished => simp

/-- When the deadline is reached at the check after `k` pumps, `sendSMS` ends
within `k + 1` units of fuel. -/
theorem sendSMS_ends (N : Native) (fuel k : Nat) (sm : StateMachine) (w : World)
    (sms : GSM_SMSMessage)
    (hdead : sm.Timeout ≤ N.now (w.nNow + 1 + k) - N.now w.nNow) (hfuel : k < fuel) :
    (sendSMS N fuel sm w sms).1 ≠ Exit.unfinished := by
  by_cases hsub : N.GSM_SendSMS w.nSubmit sm.g (stampSMSC sm sms) = GSM_Error.ERR_NONE
  · rw [sendSMS_accepted N fuel sm w sms hsub]
    have := pollLoop_ends N (N.now w.nNow) k fuel (armed sm) (submittedWorld sm w sms) hdead hfuel
    simp only [this, if_true]
    split <;> simp
  · rw [sendSMS_rejected N fuel sm w sms hsub]
    simp

/-- On a clock that advances by the timeout within any `k + 1` readings, the
send loop ends when each send has more than `k` units of fuel. -/
theorem sendLoop_ends (N : Native) (fuel k : Nat) (number : GoString)
    (msms : GSM_MultiSMSMessage) (T : Int)
    (hclock : ∀ n, T ≤ N.now (n + 1 + k) - N.now n) (hfuel : k < fuel) :
    ∀ (rem i : Nat) (sm : StateMachine) (w : World), sm.Timeout = T →
      (sendLoop N fuel number msms rem i sm w).1 ≠ Exit.unfinished := by
  intro rem
  induction rem with
  | zero => intro i sm w _; simp [sendLoop]
  | succ r ih =>
    intro i sm w hT
    rw [sendLoop]
    cases hseg : msms.SMS[i]? with
    | none => simp
    | some seg =>
      simp only
      have hend := sendSMS_ends N fuel k sm w (prepareSegment N number seg)
        (by rw [hT]; exact hclock w.nNow) hfuel
      obtain ⟨j, _, _, _, _, _, _, hT1, _⟩ :=
        sendSMS_shape N fuel sm w (prepareSegment N number seg)
      rcases hs : sendSMS N fuel sm w (prepareSegment N number seg) with ⟨x, sm2, w2⟩
      rw [hs] at hend hT1
      simp only at hend hT1
      cases x with
      | returned err =>
        cases err with
        | none => exact ih (i + 1) sm2 w2 (hT1.trans hT)
        | some e => simp
      | panicked => simp
      | unfinished => exact absurd rfl hend

/-- The submissions of the send loop: a run of the remaining segments, in index
order, each prepared and stamped with the stored SMSC number; the handle and
the SMSC descriptor are left alone. -/
theorem sendLoop_submitted (N : Native) (fuel : Nat) (number : GoString)
    (msms : GSM_MultiSMSMessage) :
    ∀ (rem i : Nat) (sm : StateMachine) (w : World),
      ∃ m, m ≤ rem ∧ (0 < rem → i < msms.SMS.length → 0 < m) ∧
        submitted (sendLoop N fuel number msms rem i sm w).2.2.log =
          submitted w.log ++ ((msms.SMS.drop i).take m).map
            (fun seg => stampSMSC sm (prepareSegment N number seg)) ∧
        (sendLoop N fuel number msms rem i sm w).2.1.smsc = sm.smsc ∧
        (sendLoop N fuel number msms rem i sm w).2.1.g = sm.g := by
  intro rem
  induction rem with
  | zero => intro i sm w; exact ⟨0, le_refl 0, fun h => absurd h (by omega), by simp [sendLoop], rfl, rfl⟩
  | succ r ih =>
    intro i sm w
    cases hseg : msms.SMS[i]? with
    | none =>
      have hlen : ¬ i < msms.SMS.length := by
        intro h
        rw [List.getElem?_eq_getElem h] at hseg
        cases hseg
      refine ⟨0, Nat.zero_le _, fun _ h => absurd h hlen, ?_, ?_, ?_⟩ <;>
        simp [sendLoop, hseg]
    | some seg =>
      rw [sendLoop_succ N fuel number msms r i sm w seg hseg]
      obtain ⟨j, _, _, _, _, hg1, hsmsc1, _, _⟩ :=
        sendSMS_shape N fuel sm w (prepareSegment N number seg)
      have hs1 := sendSMS_submitted N fuel sm w (prepareSegment N number seg)
      rcases hs : sendSMS N fuel sm w (prepareSegment N number seg) with ⟨x, sm2, w2⟩
      rw [hs] at hg1 hsmsc1 hs1
      simp only at hg1 hsmsc1 hs1
      have hone : submitted w2.log = submitted w.log ++
          ((msms.SMS.drop i).take 1).map (fun seg => stampSMSC sm (prepareSegment N number seg)) := by
        rw [take_drop_succ _ 0 i seg hseg, hs1]
        simp
      cases x with
      | returned err =>
        cases err with
        | none =>
          obtain ⟨m, hm, _, hsub, hsmsc, hg⟩ := ih (i + 1) sm2 w2
          refine ⟨m + 1, by omega, fun _ _ => Nat.succ_pos m, ?_, hsmsc.trans hsmsc1, hg.trans hg1⟩
          simp only
          rw [hsub, hs1, take_drop_succ _ m i seg hseg]
          have : (fun seg => stampSMSC sm2 (prepareSegment N number seg)) =
              (fun seg => stampSMSC sm (prepareSegment N number seg)) := by
            funext x
            exact stampSMSC_congr sm sm2 _ hsmsc1
          rw [this]
          simp
        | some e => exact ⟨1, by omega, fun _ _ => Nat.one_pos, hone, hsmsc1, hg1⟩
      | panicked => exact ⟨1, by omega, fun _ _ => Nat.one_pos, hone, hsmsc1, hg1⟩
      | unfinished => exact ⟨1, by omega, fun _ _ => Nat.one_pos, hone, hsmsc1, hg1⟩

/-! ## Properties of the rune scan -/

/-- A rune decoded from a byte that is not below `runeSelf` is above 0x7F. -/
theorem decoderune_gt (s : List Nat) : 0x7F < (decoderune s).1 := by
  unfold decoderune
  repeat' split
  all_goals simp_all [runeError, rune1Max, rune2Max, rune3Max]
  all_goals omega

/-- A one-byte result of `decoderune` is the rune error. -/
theorem decoderune_width_one (s : List Nat) (h : (decoderune s).2 = 1) :
    (decoderune s).1 = runeError := by
  have key : decoderune s = (runeError, 1) ∨ 2 ≤ (decoderune s).2 := by
    unfold decoderune
    repeat' split
    all_goals simp
  rcases key with h1 | h1
  · rw [h1]
  · omega

/-- The scan finds a rune above 0x7F exactly when the list has one. -/
theorem scanNonASCII_iff (rs : List Nat) : scanNonASCII rs = true ↔ ∃ r ∈ rs, 0x7F < r := by
  induction rs with
  | nil => simp [scanNonASCII]
  | cons r rs ih =>
    by_cases h : r > 0x7F
    · simp [scanNonASCII, h]
    · have h1 : ¬ 0x7F < r := h
      simp [scanNonASCII, h1, ih]

/-- With one unit of fuel for each byte, the scan of the runes finds a rune
above 0x7F exactly when the string has a byte that is not below 0x80. -/
theorem scan_rangeRunes (fuel : Nat) :
    ∀ s : List Nat, s.length ≤ fuel →
      (scanNonASCII (rangeRunes fuel s) = true ↔ ∃ b ∈ s, 0x80 ≤ b) := by
  induction fuel with
  | zero =>
    intro s hs
    have : s = [] := List.length_eq_zero.mp (by omega)
    subst this
    simp [rangeRunes, scanNonASCII]
  | succ f ih =>
    intro s hs
    cases s with
    | nil => simp [rangeRunes, scanNonASCII]
    | cons b rest =>
      have hlen : rest.length ≤ f := by simpa using hs
      by_cases hb : b < runeSelf
      · have hb1 : ¬ b > 0x7F := by simp only [runeSelf] at hb; omega
        have hb2 : ¬ 0x80 ≤ b := by simp only [runeSelf] at hb; omega
        simp only [rangeRunes, hb, if_true, scanNonASCII, hb1, if_false, ih rest hlen,
          List.mem_cons, exists_eq_or_imp, hb2, false_or]
      · have hd := decoderune_gt (b :: rest)
        have hb2 : 0x80 ≤ b := by simp only [runeSelf] at hb; omega
        simp only [rangeRunes, hb, if_false, scanNonASCII]
        rw [if_pos hd]
        simp only [true_iff]
        exact ⟨b, List.mem_cons_self _ _, hb2⟩

/-! ## Claims -/

/-- C7: when the native submit call `GSM_SendSMS` returns a code `e` other than
`ERR_NONE`, `sendSMS` returns the error `e` at once, whatever the fuel: the only
native call it made is the submission (no device-read pump, no clock reading),
and the status field holds the `ERR_TIMEOUT` sentinel set before submission. -/
theorem sendSMS_submit_rejected (N : Native) (fuel : Nat) (sm : StateMachine) (w : World)
    (sms : GSM_SMSMessage) (e : GSM_Error)
    (he : N.GSM_SendSMS w.nSubmit sm.g (stampSMSC sm sms) = e)
    (hne : e ≠ GSM_Error.ERR_NONE) :
    (sendSMS N fuel sm w sms).1 = Exit.returned (some e) ∧
    (sendSMS N fuel sm w sms).2.1 = { sm with status := GSM_Error.ERR_TIMEOUT } ∧
    (sendSMS N fuel sm w sms).2.1.status = GSM_Error.ERR_TIMEOUT ∧
    (sendSMS N fuel sm w sms).2.2.log = Call.SendSMS sm.g (stampSMSC sm sms) :: w.log ∧
    (sendSMS N fuel sm w sms).2.2.nPump = w.nPump ∧
    (sendSMS N fuel sm w sms).2.2.nNow = w.nNow := by
  subst he
  simp [sendSMS, hne, World.record]

/-- C1: when the native submit call returns `ERR_NONE`, no device-read pump ever
fires the completion callback, and the clock reaches the deadline at the check
after `k` pumps, `sendSMS` with more than `k` units of fuel returns the error
`ERR_TIMEOUT`; the status field then reads `ERR_TIMEOUT`, not `ERR_NONE`, and at
most `k` pumps were made (none when the deadline is reached at the first check,
as for a zero or negative `Timeout` on a monotonic clock). -/
theorem sendSMS_timeout (N : Native) (fuel k : Nat) (sm : StateMachine) (w : World)
    (sms : GSM_SMSMessage)
    (hsub : N.GSM_SendSMS w.nSubmit sm.g (stampSMSC sm sms) = GSM_Error.ERR_NONE)
    (hidle : ∀ n, N.GSM_ReadDevice n sm.g = [])
    (hdead : sm.Timeout ≤ N.now (w.nNow + 1 + k) - N.now w.nNow)
    (hfuel : k < fuel) :
    ∃ j sm1 w1, j ≤ k ∧
      sendSMS N fuel sm w sms = (Exit.returned (some GSM_Error.ERR_TIMEOUT), sm1, w1) ∧
      sm1.status = GSM_Error.ERR_TIMEOUT ∧ sm1.status ≠ GSM_Error.ERR_NONE ∧
      w1.log = List.replicate j (Call.ReadDevice sm.g) ++
        Call.SendSMS sm.g (stampSMSC sm sms) :: w.log := by
  obtain ⟨j, hj, hrun⟩ := pollLoop_idle N (N.now w.nNow) k fuel
    { sm with status := GSM_Error.ERR_TIMEOUT }
    ⟨w.nNow + 1, w.nPump, w.nSubmit + 1, Call.SendSMS sm.g (stampSMSC sm sms) :: w.log⟩
    rfl hidle hdead hfuel
  refine ⟨j, { sm with status := GSM_Error.ERR_TIMEOUT },
    ⟨w.nNow + 1 + j + 1, w.nPump + j, w.nSubmit + 1,
      List.replicate j (Call.ReadDevice sm.g) ++ Call.SendSMS sm.g (stampSMSC sm sms) :: w.log⟩,
    hj, ?_, rfl, by simp, rfl⟩
  simp only [sendSMS, hsub, World.record, ne_eq, not_true_eq_false, if_false]
  rw [hrun]
  simp

/-- C7, at a sample input: on the refusing library `SendSMS` returns code 33,
its log holds the submission alone and the status is the sentinel. -/
theorem sendSMS_submit_rejected_witness :
    refusingNative.GSM_SendSMS World.init.nSubmit connectedSM.g
        (stampSMSC connectedSM (SendSMS_message refusingNative sampleNumber sampleText))
      = GSM_Error.ERR_OTHER 33 ∧
    GSM_Error.ERR_OTHER 33 ≠ GSM_Error.ERR_NONE ∧
    (sendSMS refusingNative 0 connectedSM World.init
        (SendSMS_message refusingNative sampleNumber sampleText)).1
      = Exit.returned (some (GSM_Error.ERR_OTHER 33)) :=
  ⟨rfl, by decide,
    (sendSMS_submit_rejected refusingNative 0 connectedSM World.init
      (SendSMS_message refusingNative sampleNumber sampleText) (GSM_Error.ERR_OTHER 33)
      rfl (by decide)).1⟩

/-- C1, at sample inputs: on the quiet device with a ten second timeout and
readings four seconds apart the deadline is reached at the check after two
pumps, and `sendSMS` returns the timeout error; with a zero timeout the
deadline is reached at the first check and no pump is made. -/
theorem sendSMS_timeout_witness :
    connectedSM.Timeout ≤ quietNative.now (World.init.nNow + 1 + 2) - quietNative.now World.init.nNow ∧
    (∃ j sm1 w1, j ≤ 2 ∧
      sendSMS quietNative 5 connectedSM World.init
          (SendSMS_message quietNative sampleNumber sampleText)
        = (Exit.returned (some GSM_Error.ERR_TIMEOUT), sm1, w1) ∧
      sm1.status = GSM_Error.ERR_TIMEOUT ∧ sm1.status ≠ GSM_Error.ERR_NONE ∧
      w1.log = List.replicate j (Call.ReadDevice connectedSM.g) ++
        Call.SendSMS connectedSM.g
          (stampSMSC connectedSM (SendSMS_message quietNative sampleNumber sampleText))
          :: World.init.log) ∧
    (∃ j sm1 w1, j ≤ 0 ∧
      sendSMS quietNative 1 { connectedSM with Timeout := 0 } World.init GSM_SMSMessage.zero
        = (Exit.returned (some GSM_Error.ERR_TIMEOUT), sm1, w1) ∧
      sm1.status = GSM_Error.ERR_TIMEOUT ∧ sm1.status ≠ GSM_Error.ERR_NONE ∧
      w1.log = List.replicate j (Call.ReadDevice connectedSM.g) ++
        Call.SendSMS connectedSM.g
          (stampSMSC { connectedSM with Timeout := 0 } GSM_SMSMessage.zero)
          :: World.init.log) :=
  ⟨by decide,
    sendSMS_timeout quietNative 5 2 connectedSM World.init
      (SendSMS_message quietNative sampleNumber sampleText) rfl (fun _ => rfl) (by decide)
      (by decide),
    sendSMS_timeout quietNative 1 0 { connectedSM with Timeout := 0 } World.init
      GSM_SMSMessage.zero rfl (fun _ => rfl) (by decide) (by decide)⟩

/-- C5: `sendSMS` submits the message with its SMSC number replaced by the
stored SMSC number, whatever the field held before, and leaves the stored SMSC
descriptor unchanged; hence the one message `SendSMS` submits and every
segment `SendLongSMS` submits carry the stored SMSC number. -/
theorem sendSMS_stamps_SMSC (N : Native) (fuel : Nat) (sm : StateMachine) (w : World) :
    (∀ sms : GSM_SMSMessage,
      (stampSMSC sm sms).SMSC.Number = sm.smsc.Number ∧
      (∃ j, (sendSMS N fuel sm w sms).2.2.log =
        List.replicate j (Call.ReadDevice sm.g) ++
          Call.SendSMS sm.g (stampSMSC sm sms) :: w.log) ∧
      (sendSMS N fuel sm w sms).2.1.smsc = sm.smsc) ∧
    (∀ number text : GoString,
      ∃ m, submitted (SendSMS N fuel sm w number text).2.2.log = submitted w.log ++ [m] ∧
        m.SMSC.Number = sm.smsc.Number ∧
        (SendSMS N fuel sm w number text).2.1.smsc = sm.smsc) ∧
    (∀ number text : GoString,
      ∃ ms, submitted (SendLongSMS N fuel sm w number text).2.2.log = submitted w.log ++ ms ∧
        (∀ m ∈ ms, m.SMSC.Number = sm.smsc.Number) ∧
        (SendLongSMS N fuel sm w number text).2.1.smsc = sm.smsc) := by
  refine ⟨?_, ?_, ?_⟩
  · intro sms
    obtain ⟨j, _, hlog, _, _, _, hsmsc, _⟩ := sendSMS_shape N fuel sm w sms
    exact ⟨rfl, ⟨j, hlog⟩, hsmsc⟩
  · intro number text
    obtain ⟨j, _, _, _, _, _, hsmsc, _⟩ :=
      sendSMS_shape N fuel sm w (SendSMS_message N number text)
    exact ⟨stampSMSC sm (SendSMS_message N number text),
      sendSMS_submitted N fuel sm w (SendSMS_message N number text), rfl, hsmsc⟩
  · intro number text
    unfold SendLongSMS
    simp only
    split
    · exact ⟨[], by simp, by simp, rfl⟩
    · obtain ⟨m, _, _, hsub, hsmsc, _⟩ := sendLoop_submitted N fuel number
        (N.GSM_EncodeMultiPartSMS (SendLongSMS_info N text)).2
        (N.GSM_EncodeMultiPartSMS (SendLongSMS_info N text)).2.Number.toNat 0 sm w
      refine ⟨_, hsub, ?_, hsmsc⟩
      intro x hx
      obtain ⟨seg, _, rfl⟩ := List.mem_map.mp hx
      rfl

/-- C6: after an accepted submission the result of `sendSMS` is fixed by the
final status field (nil exactly when it is `ERR_NONE`, otherwise the error with
that code); every pump but the last one made left the `ERR_TIMEOUT` sentinel in
place; and when the pump after `k` idle pumps is the first to change the status,
before the deadline, `sendSMS` makes exactly `k + 1` pumps and returns by the
status that pump left. -/
theorem sendSMS_stops_at_first_change (N : Native) (fuel : Nat) (sm : StateMachine) (w : World)
    (sms : GSM_SMSMessage)
    (hsub : N.GSM_SendSMS w.nSubmit sm.g (stampSMSC sm sms) = GSM_Error.ERR_NONE) :
    ((sendSMS N fuel sm w sms).1 = Exit.unfinished ∨
      ((sendSMS N fuel sm w sms).1 = Exit.returned none ∧
        (sendSMS N fuel sm w sms).2.1.status = GSM_Error.ERR_NONE) ∨
      ((sendSMS N fuel sm w sms).1 = Exit.returned (some (sendSMS N fuel sm w sms).2.1.status) ∧
        (sendSMS N fuel sm w sms).2.1.status ≠ GSM_Error.ERR_NONE)) ∧
    (∃ j, (sendSMS N fuel sm w sms).2.2.log =
        List.replicate j (Call.ReadDevice sm.g) ++ Call.SendSMS sm.g (stampSMSC sm sms) :: w.log ∧
      ∀ i, i + 1 < j →
        fireCallbacks GSM_Error.ERR_TIMEOUT (N.GSM_ReadDevice (w.nPump + i) sm.g)
          = GSM_Error.ERR_TIMEOUT) ∧
    (∀ k : Nat,
      (∀ i, i < k →
        fireCallbacks GSM_Error.ERR_TIMEOUT (N.GSM_ReadDevice (w.nPump + i) sm.g)
          = GSM_Error.ERR_TIMEOUT) →
      fireCallbacks GSM_Error.ERR_TIMEOUT (N.GSM_ReadDevice (w.nPump + k) sm.g)
        ≠ GSM_Error.ERR_TIMEOUT →
      (∀ i, i ≤ k → N.now (w.nNow + 1 + i) - N.now w.nNow < sm.Timeout) →
      k < fuel →
      sendSMS N fuel sm w sms =
        ((if fireCallbacks GSM_Error.ERR_TIMEOUT (N.GSM_ReadDevice (w.nPump + k) sm.g)
              = GSM_Error.ERR_NONE then Exit.returned none
          else Exit.returned (some
            (fireCallbacks GSM_Error.ERR_TIMEOUT (N.GSM_ReadDevice (w.nPump + k) sm.g)))),
          { sm with status :=
              fireCallbacks GSM_Error.ERR_TIMEOUT (N.GSM_ReadDevice (w.nPump + k) sm.g) },
          ⟨w.nNow + 1 + k + 1, w.nPump + k + 1, w.nSubmit + 1,
            List.replicate (k + 1) (Call.ReadDevice sm.g) ++
              Call.SendSMS sm.g (stampSMSC sm sms) :: w.log⟩)) := by
  refine ⟨?_, ?_, ?_⟩
  · rw [sendSMS_accepted N fuel sm w sms hsub]
    simp only
    by_cases hb : (pollLoop N (N.now w.nNow) fuel (armed sm) (submittedWorld sm w sms)).1 = true
    · by_cases hs : (pollLoop N (N.now w.nNow) fuel (armed sm) (submittedWorld sm w sms)).2.1.status
          = GSM_Error.ERR_NONE
      · simp [hb, hs]
      · simp [hb, hs]
    · simp [hb]
  · obtain ⟨j, _, hlog, _, _, _, _, _, hmid, _⟩ := sendSMS_shape N fuel sm w sms
    exact ⟨j, hlog, hmid⟩
  · intro k hmid hfire hclock hfuel
    have hrun := pollLoop_fires N (N.now w.nNow) k fuel (armed sm) (submittedWorld sm w sms)
      rfl hmid hfire hclock hfuel
    rw [sendSMS_accepted N fuel sm w sms hsub, hrun]
    simp [armed, submittedWorld]

/-- C9: the message `SendSMS` hands to `sendSMS` has PDU type `SMS_Submit`, UDH
type `UDH_NoUDH`, coding `SMS_Coding_Default_No_Compression` and class 1, for
every number and text, and so has the message submitted to the native library. -/
theorem SendSMS_message_kind (N : Native) (fuel : Nat) (sm : StateMachine) (w : World)
    (number text : GoString) :
    SendSMS N fuel sm w number text = sendSMS N fuel sm w (SendSMS_message N number text) ∧
    (SendSMS_message N number text).PDU = GSM_SMSMessageType.SMS_Submit ∧
    (SendSMS_message N number text).UDH.Type_ = GSM_UDH.UDH_NoUDH ∧
    (SendSMS_message N number text).Coding = GSM_Coding_Type.SMS_Coding_Default_No_Compression ∧
    (SendSMS_message N number text).Class = 1 ∧
    (SendSMS_message N number text).Number = N.DecodeUTF8 number ∧
    (SendSMS_message N number text).Text = N.DecodeUTF8 text ∧
    ∃ m, submitted (SendSMS N fuel sm w number text).2.2.log = submitted w.log ++ [m] ∧
      m.PDU = GSM_SMSMessageType.SMS_Submit ∧ m.UDH.Type_ = GSM_UDH.UDH_NoUDH ∧
      m.Coding = GSM_Coding_Type.SMS_Coding_Default_No_Compression ∧ m.Class = 1 :=
  ⟨rfl, rfl, rfl, rfl, rfl, rfl, rfl, stampSMSC sm (SendSMS_message N number text),
    sendSMS_submitted N fuel sm w (SendSMS_message N number text), rfl, rfl, rfl, rfl⟩

/-- C6, at a sample input: on the confirming device the first pump is idle and
the second fires the callback with status 0; `sendSMS` makes exactly these two
pumps and returns nil with the status `ERR_NONE`. -/
theorem sendSMS_stops_at_first_change_witness :
    ackNative.GSM_SendSMS World.init.nSubmit connectedSM.g
        (stampSMSC connectedSM (SendSMS_message ackNative sampleNumber sampleText))
      = GSM_Error.ERR_NONE ∧
    sendSMS ackNative 3 connectedSM World.init (SendSMS_message ackNative sampleNumber sampleText)
      = (Exit.returned none, { connectedSM with status := GSM_Error.ERR_NONE },
          ⟨3, 2, 1, [Call.ReadDevice connectedSM.g, Call.ReadDevice connectedSM.g,
            Call.SendSMS connectedSM.g
              (stampSMSC connectedSM (SendSMS_message ackNative sampleNumber sampleText))]⟩) :=
  ⟨rfl,
    (sendSMS_stops_at_first_change ackNative 3 connectedSM World.init
      (SendSMS_message ackNative sampleNumber sampleText) rfl).2.2 1
      (fun i hi => by
        have h0 : i = 0 := by omega
        subst h0
        rfl)
      (by decide)
      (fun i hi => by
        have h0 : i = 0 ∨ i = 1 := by omega
        rcases h0 with h0 | h0 <;> subst h0 <;> decide)
      (by decide)⟩

/-- C4: the `UnicodeCoding` flag that `SendLongSMS` hands to the encoder is true
exactly when the range loop over the text meets a rune above 0x7F, which is
exactly when the text has a byte that is not below 0x80; it is false exactly
when every byte is below 0x80.  A sequence `decoderune` rejects yields the rune
0xFFFD, and every rune it yields is above 0x7F. -/
theorem SendLongSMS_unicode_flag (N : Native) (text : GoString) :
    ((SendLongSMS_info N text).UnicodeCoding = true ↔ ∃ r ∈ rangeString text, 0x7F < r) ∧
    ((SendLongSMS_info N text).UnicodeCoding = true ↔ ∃ b ∈ text, 0x80 ≤ b) ∧
    ((SendLongSMS_info N text).UnicodeCoding = false ↔ ∀ b ∈ text, b < 0x80) ∧
    (∀ s, (decoderune s).2 = 1 → (decoderune s).1 = 0xFFFD) ∧
    (∀ s, 0x7F < (decoderune s).1) := by
  have hbytes : unicodeCoding text = true ↔ ∃ b ∈ text, 0x80 ≤ b :=
    scan_rangeRunes text.length text (le_refl _)
  refine ⟨scanNonASCII_iff (rangeString text), hbytes, ?_, decoderune_width_one, decoderune_gt⟩
  show unicodeCoding text = false ↔ _
  constructor
  · intro h b hb
    by_contra hge
    have : unicodeCoding text = true := hbytes.mpr ⟨b, hb, by omega⟩
    rw [h] at this
    cases this
  · intro h
    cases hu : unicodeCoding text with
    | false => rfl
    | true =>
      obtain ⟨b, hb, hge⟩ := hbytes.mp hu
      have := h b hb
      omega

/-- The UTF-16 form of a code point takes no more code units than its UTF-8
form takes bytes. -/
theorem utf16Units_le_utf8Bytes (c : Nat) : (utf16Units c).length ≤ (utf8Bytes c).length := by
  unfold utf16Units utf8Bytes
  split_ifs <;> first | omega | simp

/-- The UTF-16 form of a text takes no more code units than its UTF-8 form
takes bytes. -/
theorem utf16Encode_le_utf8Encode (cs : List Nat) :
    (utf16Encode cs).length ≤ (utf8Encode cs).length := by
  induction cs with
  | nil => simp [utf16Encode, utf8Encode]
  | cons c cs ih =>
    have := utf16Units_le_utf8Bytes c
    simp only [utf16Encode, utf8Encode, List.length_append]
    omega

/-- The UTF-16 code units of scalar values fit sixteen bits. -/
theorem utf16Encode_units_lt (cs : List Nat) (hvalid : ∀ c ∈ cs, isScalar c) :
    ∀ u ∈ utf16Encode cs, u < 0x10000 := by
  induction cs with
  | nil => simp [utf16Encode]
  | cons c cs ih =>
    intro u hu
    simp only [utf16Encode, List.mem_append] at hu
    rcases hu with hu | hu
    · have hc : isScalar c := hvalid c (List.mem_cons_self _ _)
      unfold isScalar at hc
      unfold utf16Units at hu
      split_ifs at hu with h
      · simp only [List.mem_singleton] at hu
        omega
      · simp only [List.mem_cons, List.mem_singleton, List.not_mem_nil, or_false] at hu
        rcases hu with hu | hu <;> omega
    · exact ih (fun x hx => hvalid x (List.mem_cons_of_mem _ hx)) u hu

/-- C10: for every valid UTF-8 text, the text of a sequence of Unicode scalar
values, the buffer of `(len(text)+1)*2` bytes that `SendLongSMS` allocates is
not empty and holds the UTF-16 code units of the text, each of which fits two
bytes, and a two-byte terminator. -/
theorem msgUnicode_holds_UTF16 (text : GoString) (cs : List Nat)
    (hvalid : ∀ c ∈ cs, isScalar c) (htext : text = utf8Encode cs) :
    0 < msgUnicodeLen text ∧
    2 * ((utf16Encode cs).length + 1) ≤ msgUnicodeLen text ∧
    (∀ u ∈ utf16Encode cs, u < 0x10000) := by
  have := utf16Encode_le_utf8Encode cs
  subst htext
  unfold msgUnicodeLen
  refine ⟨by omega, by omega, utf16Encode_units_lt cs hvalid⟩

/-- C10, at a sample input: the text "Aé€😀" has ten bytes and five UTF-16 code
units; the buffer has twenty-two bytes; the range loop reads the four code
points back. -/
theorem msgUnicode_holds_UTF16_witness :
    (∀ c ∈ [0x41, 0xE9, 0x20AC, 0x1F600], isScalar c) ∧
    rangeString (utf8Encode [0x41, 0xE9, 0x20AC, 0x1F600]) = [0x41, 0xE9, 0x20AC, 0x1F600] ∧
    0 < msgUnicodeLen (utf8Encode [0x41, 0xE9, 0x20AC, 0x1F600]) ∧
    2 * ((utf16Encode [0x41, 0xE9, 0x20AC, 0x1F600]).length + 1)
      ≤ msgUnicodeLen (utf8Encode [0x41, 0xE9, 0x20AC, 0x1F600]) ∧
    (∀ u ∈ utf16Encode [0x41, 0xE9, 0x20AC, 0x1F600], u < 0x10000) :=
  ⟨by decide, by decide,
    msgUnicode_holds_UTF16 (utf8Encode [0x41, 0xE9, 0x20AC, 0x1F600]) [0x41, 0xE9, 0x20AC, 0x1F600]
      (by decide) rfl⟩

/-- C2 fails on the code: a state machine that `NewStateMachine` just created,
on which `Connect` was never called or has failed, has the zero SMSC
descriptor, and `sendSMS`, `SendSMS` and `SendLongSMS` each hand a message with
the empty SMSC number to the native submit operation. -/
theorem unconnected_handle_reaches_native :
    (NewStateMachine refusingNative World.init []).1 = Created.ok freshSM ∧
    freshSM.smsc = GSM_SMSC.zero ∧
    (Connect refusingNative freshSM World.init).1 = some (GSM_Error.ERR_OTHER 33) ∧
    (Connect refusingNative freshSM World.init).2.1 = freshSM ∧
    submitted (sendSMS refusingNative 1 freshSM World.init GSM_SMSMessage.zero).2.2.log
      = [GSM_SMSMessage.zero] ∧
    submitted (SendSMS refusingNative 1 freshSM World.init sampleNumber sampleText).2.2.log
      = [SendSMS_message refusingNative sampleNumber sampleText] ∧
    (SendSMS_message refusingNative sampleNumber sampleText).SMSC = GSM_SMSC.zero ∧
    submitted (SendLongSMS refusingNative 1 freshSM World.init sampleNumber sampleText).2.2.log
      = [prepareSegment refusingNative sampleNumber
          { GSM_SMSMessage.zero with Text := [0x61], Class := 1 }] ∧
    (prepareSegment refusingNative sampleNumber
      { GSM_SMSMessage.zero with Text := [0x61], Class := 1 }).SMSC = GSM_SMSC.zero := by
  refine ⟨rfl, rfl, rfl, rfl, rfl, rfl, rfl, rfl, rfl⟩

/-- C2 as amended: on a state machine whose SMSC descriptor is still the zero
value the binding makes no check of its own.  `sendSMS` and `SendSMS` hand the
message, with the empty SMSC number, to the native submit operation once, and
when that operation returns a code other than `ERR_NONE` they return it
without a pump; `SendLongSMS` submits the first segment in the same way
whenever the encoder yields one. -/
theorem send_unconnected (N : Native) (fuel : Nat) (sm : StateMachine) (w : World)
    (hz : sm.smsc = GSM_SMSC.zero) :
    (∀ sms : GSM_SMSMessage,
      (stampSMSC sm sms).SMSC.Number = [] ∧
      submitted (sendSMS N fuel sm w sms).2.2.log = submitted w.log ++ [stampSMSC sm sms] ∧
      (N.GSM_SendSMS w.nSubmit sm.g (stampSMSC sm sms) ≠ GSM_Error.ERR_NONE →
        (sendSMS N fuel sm w sms).1 =
          Exit.returned (some (N.GSM_SendSMS w.nSubmit sm.g (stampSMSC sm sms))) ∧
        (sendSMS N fuel sm w sms).2.2.log = Call.SendSMS sm.g (stampSMSC sm sms) :: w.log)) ∧
    (∀ number text : GoString,
      (stampSMSC sm (SendSMS_message N number text)).SMSC.Number = [] ∧
      submitted (SendSMS N fuel sm w number text).2.2.log =
        submitted w.log ++ [stampSMSC sm (SendSMS_message N number text)] ∧
      (N.GSM_SendSMS w.nSubmit sm.g (stampSMSC sm (SendSMS_message N number text))
          ≠ GSM_Error.ERR_NONE →
        (SendSMS N fuel sm w number text).1 = Exit.returned (some
          (N.GSM_SendSMS w.nSubmit sm.g (stampSMSC sm (SendSMS_message N number text)))) ∧
        (SendSMS N fuel sm w number text).2.2.log =
          Call.SendSMS sm.g (stampSMSC sm (SendSMS_message N number text)) :: w.log)) ∧
    (∀ (number text : GoString) (msms : GSM_MultiSMSMessage) (seg : GSM_SMSMessage),
      N.GSM_EncodeMultiPartSMS (SendLongSMS_info N text) = (GSM_Error.ERR_NONE, msms) →
      0 < msms.Number → msms.SMS[0]? = some seg →
      (stampSMSC sm (prepareSegment N number seg)).SMSC.Number = [] ∧
      ∃ more, submitted (SendLongSMS N fuel sm w number text).2.2.log =
        submitted w.log ++ stampSMSC sm (prepareSegment N number seg) :: more) := by
  have hnum : ∀ sms, (stampSMSC sm sms).SMSC.Number = [] := by
    intro sms
    simp [stampSMSC, CopyUnicodeString, hz, GSM_SMSC.zero]
  have hone : ∀ sms : GSM_SMSMessage,
      (stampSMSC sm sms).SMSC.Number = [] ∧
      submitted (sendSMS N fuel sm w sms).2.2.log = submitted w.log ++ [stampSMSC sm sms] ∧
      (N.GSM_SendSMS w.nSubmit sm.g (stampSMSC sm sms) ≠ GSM_Error.ERR_NONE →
        (sendSMS N fuel sm w sms).1 =
          Exit.returned (some (N.GSM_SendSMS w.nSubmit sm.g (stampSMSC sm sms))) ∧
        (sendSMS N fuel sm w sms).2.2.log = Call.SendSMS sm.g (stampSMSC sm sms) :: w.log) := by
    intro sms
    refine ⟨hnum sms, sendSMS_submitted N fuel sm w sms, ?_⟩
    intro hne
    rw [sendSMS_rejected N fuel sm w sms hne]
    exact ⟨rfl, rfl⟩
  refine ⟨hone, fun number text => hone (SendSMS_message N number text), ?_⟩
  intro number text msms seg henc hpos hseg
  refine ⟨hnum _, ?_⟩
  have hlen : 0 < msms.SMS.length := by
    obtain ⟨h, _⟩ := List.getElem?_eq_some_iff.mp hseg
    exact h
  obtain ⟨m, _, hm, hsub, _⟩ := sendLoop_submitted N fuel number msms msms.Number.toNat 0 sm w
  have hm1 : 0 < m := hm (by omega) hlen
  obtain ⟨m1, rfl⟩ : ∃ m1, m = m1 + 1 := ⟨m - 1, by omega⟩
  rw [take_drop_succ _ m1 0 seg hseg] at hsub
  refine ⟨((msms.SMS.drop (0 + 1)).take m1).map
    (fun seg => stampSMSC sm (prepareSegment N number seg)), ?_⟩
  unfold SendLongSMS
  simp only [henc, ne_eq, not_true_eq_false, if_false]
  rw [hsub]
  simp

/-- C2 as amended, at a sample input: the freshly created state machine has the
zero SMSC descriptor, and on the refusing library `SendSMS` returns code 33
after the one submission. -/
theorem send_unconnected_witness :
    freshSM.smsc = GSM_SMSC.zero ∧
    (SendSMS refusingNative 1 freshSM World.init sampleNumber sampleText).1
      = Exit.returned (some (GSM_Error.ERR_OTHER 33)) ∧
    (SendSMS refusingNative 1 freshSM World.init sampleNumber sampleText).2.2.log
      = [Call.SendSMS freshSM.g (stampSMSC freshSM (SendSMS_message refusingNative sampleNumber sampleText))] :=
  ⟨rfl,
    ((send_unconnected refusingNative 1 freshSM World.init rfl).2.1 sampleNumber sampleText).2.2
      (by decide)⟩

/-- C8 fails on the code: `Free` has no nil guard.  After a first `Free` of a
live state machine a second one passes the nil handle to the native free
operation; and a `NewStateMachine` that fails hands back the nil pointer,
through which a call of `Free` is a nil dereference. -/
theorem Free_twice_passes_nil :
    (NewStateMachine quietNative World.init []).1 = Created.ok freshSM ∧
    freed (Free (Free freshSM World.init).1 (Free freshSM World.init).2).2.log
      = [some 1, none] ∧
    (NewStateMachine badConfigNative World.init []).1 = Created.failed (GSM_Error.ERR_OTHER 2) ∧
    FreeAt (NewStateMachine badConfigNative World.init []).1.pointer
      (NewStateMachine badConfigNative World.init []).2 = none := by
  refine ⟨rfl, rfl, rfl, rfl⟩

/-- C8 as amended: every call of `Free` passes the current handle field to the
native free operation exactly once and leaves the field nil; so the first
`Free` of a state machine releases its context once, and a second `Free` does
not pass that context again but passes the nil handle.  A `NewStateMachine`
that fails has either made no allocation and no free, or has released the
non-nil context it allocated exactly once. -/
theorem Free_passes_handle (sm : StateMachine) (w : World) :
    (Free sm w).1.g = none ∧
    (Free sm w).2.log = Call.FreeStateMachine sm.g :: w.log ∧
    (Free (Free sm w).1 (Free sm w).2).2.log =
      Call.FreeStateMachine none :: Call.FreeStateMachine sm.g :: w.log ∧
    freed (Free (Free sm w).1 (Free sm w).2).2.log = freed w.log ++ [sm.g, none] ∧
    (∀ (N : Native) (cf : GoString) (e : GSM_Error),
      (NewStateMachine N w cf).1 = Created.failed e →
      ((NewStateMachine N w cf).2.log =
          Call.FindGammuRC (if cf ≠ [] then some cf else none) :: w.log ∧
        freed (NewStateMachine N w cf).2.log = freed w.log) ∨
      (∃ h : Nat, N.GSM_AllocStateMachine (w.log.length + 1) = some h ∧
        (NewStateMachine N w cf).2.log =
          Call.INI_Free :: Call.FreeStateMachine (some h) :: Call.ReadConfig (some h) ::
            Call.AllocStateMachine ::
            Call.FindGammuRC (if cf ≠ [] then some cf else none) :: w.log ∧
        freed (NewStateMachine N w cf).2.log = freed w.log ++ [some h])) := by
  refine ⟨rfl, rfl, rfl, ?_, ?_⟩
  · simp [Free, World.record, freed]
  · intro N cf e hfail
    unfold NewStateMachine at hfail ⊢
    simp only [World.record, StateMachine.zero, Free, List.length_cons] at hfail ⊢
    generalize (if cf ≠ [] then some cf else none) = arg at hfail ⊢
    by_cases h1 : N.GSM_FindGammuRC w.log.length arg = GSM_Error.ERR_NONE
    · cases h2 : N.GSM_AllocStateMachine (w.log.length + 1) with
      | none =>
        rw [h1, h2] at hfail
        simp at hfail
      | some h =>
        by_cases h3 : N.GSM_ReadConfig (w.log.length + 1 + 1) (some h) = GSM_Error.ERR_NONE
        · rw [h1, h2, h3] at hfail
          simp at hfail
        · right
          refine ⟨h, rfl, ?_⟩
          rw [h1]
          simp [h3, freed]
    · left
      simp [h1, freed]

/-- C3: when the encoder succeeds with `n` segments within its array,
`SendLongSMS` sends them through `sendSMS` in index order.  If the sends of
segments `0` to `k - 1` returned nil and the send of segment `k` did not, the
call ends with the outcome of that send (its error) and the segments submitted
are those up to `k`; if the call returns nil, all `n` sends returned nil and all
`n` segments were submitted in order.  In every case a run of the first
segments, in order, was submitted; the call does not panic, and it ends when
the clock advances by the timeout within any `k + 1` readings and each send has
more than `k` units of fuel. -/
theorem SendLongSMS_in_order (N : Native) (fuel : Nat) (sm : StateMachine) (w : World)
    (number text : GoString) (msms : GSM_MultiSMSMessage) (n : Nat)
    (henc : N.GSM_EncodeMultiPartSMS (SendLongSMS_info N text) = (GSM_Error.ERR_NONE, msms))
    (hn : msms.Number = (n : Int)) (hcap : n ≤ msms.SMS.length) :
    (∀ (k : Nat) (smk : StateMachine) (wk : World) (seg : GSM_SMSMessage)
        (out : Exit × StateMachine × World),
      k < n → AllSent N fuel number (msms.SMS.take k) sm w smk wk →
      msms.SMS[k]? = some seg →
      sendSMS N fuel smk wk (prepareSegment N number seg) = out →
      out.1 ≠ Exit.returned none →
      SendLongSMS N fuel sm w number text = out ∧
      submitted out.2.2.log = submitted w.log ++
        (msms.SMS.take (k + 1)).map (fun s => stampSMSC sm (prepareSegment N number s))) ∧
    (∀ (sm1 : StateMachine) (w1 : World),
      SendLongSMS N fuel sm w number text = (Exit.returned none, sm1, w1) →
      AllSent N fuel number (msms.SMS.take n) sm w sm1 w1 ∧
      submitted w1.log = submitted w.log ++
        (msms.SMS.take n).map (fun s => stampSMSC sm (prepareSegment N number s))) ∧
    (∃ m, m ≤ n ∧ submitted (SendLongSMS N fuel sm w number text).2.2.log =
      submitted w.log ++
        (msms.SMS.take m).map (fun s => stampSMSC sm (prepareSegment N number s))) ∧
    (SendLongSMS N fuel sm w number text).1 ≠ Exit.panicked ∧
    (∀ k : Nat, (∀ i, sm.Timeout ≤ N.now (i + 1 + k) - N.now i) → k < fuel →
      (SendLongSMS N fuel sm w number text).1 ≠ Exit.unfinished) := by
  have hrun : SendLongSMS N fuel sm w number text = sendLoop N fuel number msms n 0 sm w := by
    unfold SendLongSMS
    simp [henc, hn]
  rw [hrun]
  refine ⟨?_, ?_, ?_, ?_, ?_⟩
  · intro k smk wk seg out hk hall hseg hsend hne
    have hloop := sendLoop_first_failure N fuel number msms k n 0 sm smk w wk seg out hk
      (by omega) (by simpa using hall) (by simpa using hseg) hsend hne
    refine ⟨hloop, ?_⟩
    obtain ⟨_, hsmsc, _, hsub⟩ := AllSent_frame N fuel number _ sm smk w wk hall
    have hs := sendSMS_submitted N fuel smk wk (prepareSegment N number seg)
    rw [hsend] at hs
    rw [hs, hsub, stampSMSC_congr sm smk _ hsmsc, List.take_succ, hseg]
    simp
  · intro sm1 w1 hnil
    have hall := sendLoop_nil_all N fuel number msms n 0 sm sm1 w w1 (by omega) hnil
    simp only [List.drop_zero] at hall
    exact ⟨hall, (AllSent_frame N fuel number _ sm sm1 w w1 hall).2.2.2⟩
  · obtain ⟨m, hm, _, hsub, _⟩ := sendLoop_submitted N fuel number msms n 0 sm w
    exact ⟨m, hm, by simpa using hsub⟩
  · exact sendLoop_no_panic N fuel number msms n 0 sm w (by omega)
  · intro k hclock hfuel
    exact sendLoop_ends N fuel k number msms sm.Timeout hclock hfuel n 0 sm w rfl

/-- C3, at a sample input: the encoder yields three segments; on the confirming
device the first send returns nil and the second is answered with a failure
status, so `SendLongSMS` returns the error of the second send, `ERR_UNKNOWN`,
and exactly the first two segments were submitted, in order. -/
theorem SendLongSMS_in_order_witness :
    ackNative.GSM_EncodeMultiPartSMS (SendLongSMS_info ackNative sampleText)
      = (GSM_Error.ERR_NONE, threeSegments) ∧
    threeSegments.Number = ((3 : Nat) : Int) ∧ 3 ≤ threeSegments.SMS.length ∧
    (SendLongSMS ackNative 3 connectedSM World.init sampleNumber sampleText).1
      = Exit.returned (some GSM_Error.ERR_UNKNOWN) ∧
    submitted (SendLongSMS ackNative 3 connectedSM World.init sampleNumber sampleText).2.2.log
      = (threeSegments.SMS.take 2).map
          (fun s => stampSMSC connectedSM (prepareSegment ackNative sampleNumber s)) := by
  have h := (SendLongSMS_in_order ackNative 3 connectedSM World.init sampleNumber sampleText
    threeSegments 3 rfl rfl (by decide)).1 1
      (sendSMS ackNative 3 connectedSM World.init
        (prepareSegment ackNative sampleNumber
          { GSM_SMSMessage.zero with Text := [0x61], Class := 1 })).2.1
      (sendSMS ackNative 3 connectedSM World.init
        (prepareSegment ackNative sampleNumber
          { GSM_SMSMessage.zero with Text := [0x61], Class := 1 })).2.2
      { GSM_SMSMessage.zero with Text := [0x62], Class := 1 } _ (by decide)
      (AllSent.cons _ _ _ _ _ _ _ _ rfl (AllSent.nil _ _)) rfl rfl (by decide)
  refine ⟨rfl, rfl, by decide, ?_, ?_⟩
  · rw [h.1]
    rfl
  · rw [h.1]
    exact h.2

end Gammu
